import Mathlib

/-!
Verification of the boxcutter streaming box engine (src/boxcutter.py).

The embedding models byte streams as `List Nat` (each element a byte value,
0..255).  Python `int` values are modelled as `Nat`/`Int`; `struct.pack`
big-endian encodings are modelled by `beBytes` (which truncates modulo
`2 ^ (8 * width)`, the range in which `struct.pack` succeeds; theorems carry
the corresponding bounds as hypotheses).  Python exceptions are modelled by
the `PyErr` enumeration and `Except PyErr` results.  Functions that loop on
a stream take a fuel argument; running out of fuel yields `PyErr.boxCutter`,
and every theorem is stated for fuel values the loops cannot exhaust, or
holds for all fuel values.
-/

deriving instance DecidableEq for Except

namespace Boxcutter

/-- Boxes bigger than this require an extended box size (`BIG_SIZE`). -/
def BIG_SIZE : Nat := 0xFFFFFFFF

/-- Big-endian value of a byte list (`struct.unpack` of the given bytes). -/
def beVal (l : List Nat) : Nat := l.foldl (fun a b => a * 256 + b) 0

/-- Big-endian encoding of `n` on `w` bytes (`struct.pack`, modulo `256 ^ w`). -/
def beBytes : Nat → Nat → List Nat
  | 0, _ => []
  | w + 1, n => beBytes w (n / 256) ++ [n % 256]

/-- Embedding of `isValid4cc`: exactly 4 bytes, all printable ASCII. -/
def isValid4cc (b : List Nat) : Bool :=
  b.length == 4 && b.all (fun c => decide (0x20 ≤ c) && decide (c ≤ 0x7e))

/-- Exception classes raised by the source (plus the Python builtins it uses).
The source defines `BoxCutterException` with subclasses `InvalidBmffError`
(itself with subclass `RawJxlError`), `InvalidJxlContainerError`, `UsageError`,
`InvalidBoxSpec`, `UnseekableOutputError` and `TooMuchDataError`.  No
`UnseekableInputError` class exists anywhere in the source.  Builtins:
`IOError` (raised by `copyData` and `CatReader.seek`), `ValueError`
(`bytes([x])` out of range, `int()` failures, `encode` failures),
`NameError` (touching `brotli` when the import failed). -/
inductive PyErr where
  | invalidBmff
  | rawJxl
  | invalidJxlContainer
  | invalidBoxSpec
  | usageError
  | unseekableOutput
  | tooMuchData
  | ioError
  | valueError
  | nameError
  | indexError
  | boxCutter
  deriving DecidableEq, Repr

/-- Embedding of the `BoxDetails` class. -/
structure BoxDetails where
  offset : Nat
  length : Nat
  boxtype : List Nat
  hasExtendedSize : Bool
  deriving DecidableEq, Repr

/-- Result of parsing one box header: the resolved length (0 means the box
extends to the end of the file and is the final box), the 4 type bytes,
the extended-size flag, and the number of header bytes read (8 or 16). -/
structure ParsedHeader where
  length : Nat
  boxtype : List Nat
  hasExtendedSize : Bool
  headerBytes : Nat
  deriving DecidableEq, Repr

/-- Embedding of the header-parsing part of `BoxReader.nextBox` (lines
1249-1300 of src/boxcutter.py), applied to the remaining stream bytes `s`
with the stream positioned at the start of the box.  `isFirst` is true for
the first box of the stream (`self._index == 0`).  Behaviour, in source
order: read 8 bytes where zero bytes read signals end of stream (`ok none`)
and a short non-empty read raises `InvalidBmff`; on the first box, raise
`RawJxl` if the 8 bytes begin `FF 0A` and bytes 4..8 are not a valid 4CC;
decode the big-endian u32 length; if it is 1, read 8 further bytes as a
big-endian u64 length and set `hasExtendedSize`; validate the type bytes;
reject a positive length smaller than the header byte count. -/
def nextBoxParse (isFirst : Bool) (s : List Nat) : Except PyErr (Option ParsedHeader) :=
  let hdr := s.take 8
  if s.length = 0 then
    .ok none
  else if s.length < 8 then
    .error .invalidBmff
  else if isFirst && hdr.take 2 == [0xFF, 0x0A] && !isValid4cc (hdr.drop 4) then
    .error .rawJxl
  else
    let len32 := beVal (hdr.take 4)
    let afterExt : Except PyErr (Nat × Bool × Nat) :=
      if len32 = 1 then
        if s.length < 16 then .error .invalidBmff
        else .ok (beVal ((s.drop 8).take 8), true, 16)
      else .ok (len32, false, 8)
    match afterExt with
    | .error e => .error e
    | .ok (len, hasExt, hb) =>
      let boxtype := hdr.drop 4
      if !isValid4cc boxtype then .error .invalidBmff
      else if len > 0 && len < hb then .error .invalidBmff
      else .ok (some ⟨len, boxtype, hasExt, hb⟩)

/-- Embedding of `writeBoxHeader` (lines 945-963): the byte sequence the
function writes to the sink for a box of type `boxtype` whose payload has
`payloadSize` bytes (negative meaning unknown, encoded as size 0). -/
def writeBoxHeader (boxtype : List Nat) (payloadSize : Int) : List Nat :=
  if payloadSize < 0 then
    [0, 0, 0, 0] ++ boxtype
  else if 8 + payloadSize ≤ (BIG_SIZE : Int) then
    beBytes 4 (8 + payloadSize).toNat ++ boxtype
  else
    beBytes 4 1 ++ boxtype ++ beBytes 8 (16 + payloadSize).toNat

theorem beBytes_length : ∀ w n, (beBytes w n).length = w := by
  intro w
  induction w with
  | zero => intro n; rfl
  | succ k ih => intro n; simp [beBytes, ih]

theorem beVal_append_one (l : List Nat) (b : Nat) :
    beVal (l ++ [b]) = beVal l * 256 + b := by
  simp [beVal, List.foldl_append]

theorem beVal_beBytes : ∀ w n, beVal (beBytes w n) = n % 256 ^ w := by
  intro w
  induction w with
  | zero => intro n; simp [beBytes, beVal, Nat.mod_one]
  | succ k ih =>
    intro n
    rw [beBytes, beVal_append_one, ih]
    conv_rhs => rw [show (256 : Nat) ^ (k + 1) = 256 * 256 ^ k by ring, Nat.mod_mul]
    ring

theorem beVal_beBytes_of_lt {w n : Nat} (h : n < 256 ^ w) :
    beVal (beBytes w n) = n := by
  rw [beVal_beBytes, Nat.mod_eq_of_lt h]

theorem isValid4cc_length {tp : List Nat} (h : isValid4cc tp = true) :
    tp.length = 4 := by
  unfold isValid4cc at h
  simp only [Bool.and_eq_true, beq_iff_eq] at h
  exact h.1

theorem nextBoxParse_u32 (b : Bool) (L : Nat) (tp tail : List Nat)
    (htp : isValid4cc tp = true) (h8 : 8 ≤ L) (hB : L ≤ BIG_SIZE) :
    nextBoxParse b (beBytes 4 L ++ (tp ++ tail)) = .ok (some ⟨L, tp, false, 8⟩) := by
  have hA : (beBytes 4 L).length = 4 := beBytes_length 4 L
  have htp4 : tp.length = 4 := isValid4cc_length htp
  have hassoc : beBytes 4 L ++ (tp ++ tail) = (beBytes 4 L ++ tp) ++ tail := by simp
  have htake8 : (beBytes 4 L ++ (tp ++ tail)).take 8 = beBytes 4 L ++ tp := by
    rw [hassoc]; exact List.take_left' (by simp [hA, htp4])
  have htk4 : (beBytes 4 L ++ tp).take 4 = beBytes 4 L := List.take_left' hA
  have hdr4 : (beBytes 4 L ++ tp).drop 4 = tp := List.drop_left' hA
  have hlen : (beBytes 4 L ++ (tp ++ tail)).length = 8 + tail.length := by
    simp [hA, htp4]; omega
  have hLlt : L < 256 ^ 4 := by
    have : BIG_SIZE < 256 ^ 4 := by norm_num [BIG_SIZE]
    omega
  have hval : beVal (beBytes 4 L) = L := beVal_beBytes_of_lt hLlt
  unfold nextBoxParse
  simp only [htake8, htk4, hdr4, hlen, hval, htp]
  have hne1 : ¬ (L = 1) := by omega
  have hnotlt : ¬ (L > 0 && L < 8) = true := by simp; omega
  simp [hne1, hnotlt, htp]

theorem nextBoxParse_u64 (b : Bool) (L : Nat) (tp tail : List Nat)
    (htp : isValid4cc tp = true) (h16 : 16 ≤ L) (hB : L < 2 ^ 64) :
    nextBoxParse b (beBytes 4 1 ++ (tp ++ (beBytes 8 L ++ tail))) =
      .ok (some ⟨L, tp, true, 16⟩) := by
  have hA : (beBytes 4 1).length = 4 := beBytes_length 4 1
  have hE : (beBytes 8 L).length = 8 := beBytes_length 8 L
  have htp4 : tp.length = 4 := isValid4cc_length htp
  have hassoc : beBytes 4 1 ++ (tp ++ (beBytes 8 L ++ tail)) =
      (beBytes 4 1 ++ tp) ++ (beBytes 8 L ++ tail) := by simp
  have htake8 : (beBytes 4 1 ++ (tp ++ (beBytes 8 L ++ tail))).take 8 =
      beBytes 4 1 ++ tp := by
    rw [hassoc]; exact List.take_left' (by simp [hA, htp4])
  have hdrop8 : (beBytes 4 1 ++ (tp ++ (beBytes 8 L ++ tail))).drop 8 =
      beBytes 8 L ++ tail := by
    rw [hassoc]; exact List.drop_left' (by simp [hA, htp4])
  have htk4 : (beBytes 4 1 ++ tp).take 4 = beBytes 4 1 := List.take_left' hA
  have hdr4 : (beBytes 4 1 ++ tp).drop 4 = tp := List.drop_left' hA
  have hlen : (beBytes 4 1 ++ (tp ++ (beBytes 8 L ++ tail))).length =
      16 + tail.length := by
    simp [hA, htp4, hE]; omega
  have hval1 : beVal (beBytes 4 1) = 1 := by decide
  have hvalE : beVal (beBytes 8 L) = L := by
    apply beVal_beBytes_of_lt
    have : (2 : Nat) ^ 64 = 256 ^ 8 := by norm_num
    omega
  have hEtake : (beBytes 8 L ++ tail).take 8 = beBytes 8 L := List.take_left' hE
  unfold nextBoxParse
  simp only [htake8, hdrop8, htk4, hdr4, hlen, hval1, hEtake, hvalE, htp]
  have hnotlt : ¬ (L > 0 && L < 16) = true := by simp; omega
  simp [htp, hnotlt]
  omega

/-- The 4CC `brob` as bytes. -/
def brobType : List Nat := [0x62, 0x72, 0x6F, 0x62]

/-- Lowercasing of one byte, as Python `bytes.lower()`: ASCII A-Z only. -/
def lowerByte (b : Nat) : Nat := if 0x41 ≤ b ∧ b ≤ 0x5A then b + 32 else b

/-- Helper for the character-class syntax of `fnmatch`: split a byte list at
the first `]` (0x5D), returning the content before it and the remainder
after it, or `none` when no `]` occurs. -/
def splitAtRB : List Nat → Option (List Nat × List Nat)
  | [] => none
  | c :: r =>
    if c = 0x5D then some ([], r)
    else match splitAtRB r with
      | some (a, b) => some (c :: a, b)
      | none => none

theorem splitAtRB_length : ∀ {p a b : List Nat}, splitAtRB p = some (a, b) →
    b.length < p.length := by
  intro p
  induction p with
  | nil => intro a b h; simp [splitAtRB] at h
  | cons c r ih =>
    intro a b h
    by_cases hc : c = 0x5D
    · simp [splitAtRB, hc] at h
      simp [← h.2]
    · simp only [splitAtRB, if_neg hc] at h
      cases hr : splitAtRB r with
      | none => rw [hr] at h; simp at h
      | some ab =>
        rw [hr] at h
        obtain ⟨a2, b2⟩ := ab
        simp at h
        have := ih hr
        simp [← h.2]
        omega

/-- Strip a leading negation byte `!` of an `fnmatch` character class. -/
def stripNeg : List Nat → Bool × List Nat
  | 0x21 :: r => (true, r)
  | p => (false, p)

/-- Strip a literal `]` standing first in the content of a character class. -/
def stripLead : List Nat → List Nat × List Nat
  | 0x5D :: r => ([0x5D], r)
  | p => ([], p)

/-- Turn character-class content into ranges: `a-b` becomes a range, any
other byte a one-element range. -/
def classRanges : List Nat → List (Nat × Nat)
  | a :: 0x2D :: b :: r => (a, b) :: classRanges r
  | a :: r => (a, a) :: classRanges r
  | [] => []

/-- Parse a character class of an `fnmatch` pattern: the input is the bytes
after the opening `[`.  Returns the negation flag (leading `!`), the list of
ranges, and the pattern bytes after the closing `]`, or `none` for an
unmatched `[` (which `fnmatch` treats as a literal byte).  A `]` directly
after `[` or `[!` is class content. -/
def classParse (p : List Nat) : Option (Bool × List (Nat × Nat) × List Nat) :=
  match splitAtRB (stripLead (stripNeg p).2).2 with
  | none => none
  | some (content, rest) =>
    some ((stripNeg p).1, classRanges ((stripLead (stripNeg p).2).1 ++ content), rest)

/-- Embedding of `fnmatch.fnmatchcase(name, pattern)` on byte strings, as
used by `BoxSpec.matches` for wildcard selectors: `*` matches any run, `?`
any single byte, `[...]`/`[!...]` character classes with ranges, an
unmatched `[` is literal, and the whole name must match.  The fuel argument
makes the recursion structural; every recursive call strictly shrinks the
combined length of pattern and name, so `globMatch` below never exhausts it. -/
def globMatchF : Nat → List Nat → List Nat → Bool
  | 0, _, _ => false
  | _ + 1, [], [] => true
  | _ + 1, [], _ :: _ => false
  | fuel + 1, 0x2A :: prest, name =>
    globMatchF fuel prest name ||
      (match name with
       | [] => false
       | _ :: nrest => globMatchF fuel (0x2A :: prest) nrest)
  | fuel + 1, 0x3F :: prest, name =>
    (match name with
     | [] => false
     | _ :: nrest => globMatchF fuel prest nrest)
  | fuel + 1, 0x5B :: prest, name =>
    (match classParse prest with
     | some (neg, ranges, prest2) =>
       (match name with
        | [] => false
        | c :: nrest =>
          (neg != ranges.any (fun r => decide (r.1 ≤ c) && decide (c ≤ r.2)))
            && globMatchF fuel prest2 nrest)
     | none =>
       (match name with
        | c :: nrest => c == 0x5B && globMatchF fuel prest nrest
        | [] => false))
  | fuel + 1, c :: prest, name =>
    (match name with
     | c2 :: nrest => c == c2 && globMatchF fuel prest nrest
     | [] => false)

/-- Glob matching at sufficient fuel. -/
def globMatch (pattern name : List Nat) : Bool :=
  globMatchF (pattern.length + name.length + 1) pattern name

/-- Embedding of the `BoxSpec` selector object (fields as in the source;
`instanceRange` is never populated by the current parser but is consulted by
`matches`). -/
structure BoxSpec where
  boxtype : Option (List Nat)
  typeIsWildcard : Bool
  typeCaseInsensitive : Bool
  typeIncludesBrobs : Bool
  instanceRange : Option (Int × Int)
  indexRange : Option (Option Int × Option Int)
  deriving DecidableEq, Repr

/-- Effective type used for type matching (the local computation inside
`BoxSpec.matches`, line 1107): the inner type when the selector opts into
brob-aware matching and an inner type is present, otherwise the outer
box type. -/
def BoxSpec.effectiveType (sp : BoxSpec) (box : BoxDetails)
    (innerType : Option (List Nat)) : List Nat :=
  match sp.typeIncludesBrobs, innerType with
  | true, some it => it
  | _, _ => box.boxtype

/-- Embedding of `BoxSpec.matches` (lines 1098-1116). -/
def BoxSpec.matches (sp : BoxSpec) (i : Int) (box : BoxDetails)
    (innerType : Option (List Nat)) (inst : Int) : Bool :=
  if (match sp.indexRange with
      | some (lo, hi) =>
        (match lo with | some l => decide (i < l) | none => false)
          || (match hi with | some h => decide (i > h) | none => false)
      | none => false) then false
  else if (match sp.instanceRange with
      | some (lo, hi) => decide (inst < lo) || decide (inst > hi)
      | none => false) then false
  else match sp.boxtype with
    | none => true
    | some pat =>
      let eff := sp.effectiveType box innerType
      let eff2 := if sp.typeCaseInsensitive then eff.map lowerByte else eff
      if sp.typeIsWildcard then globMatch pat eff2
      else eff2 == pat

/-- The match test of the scan loop (`scanBoxes` lines 718-720): a null
selector list matches everything; otherwise any selector must accept. -/
def scanMatch (boxspecs : Option (List BoxSpec)) (i : Int) (box : BoxDetails)
    (innerType : Option (List Nat)) (inst : Int) : Bool :=
  match boxspecs with
  | none => true
  | some l => l.any fun b => b.matches i box innerType inst

/-- Check that `sep` occurs at the head of `l`. -/
def headMatches : List Char → List Char → Bool
  | [], _ => true
  | _ :: _, [] => false
  | a :: as, b :: bs => a == b && headMatches as bs

/-- Split a character list at the first occurrence of the separator,
returning the parts before and after it, or `none` when it never occurs. -/
def splitFirstAux (sep : List Char) : List Char → Option (List Char × List Char)
  | [] => none
  | c :: r =>
    if headMatches sep (c :: r) then some ([], (c :: r).drop sep.length)
    else match splitFirstAux sep r with
      | some (a, b) => some (c :: a, b)
      | none => none

/-- Split a string at the first occurrence of `sep`, as Python
`str.split(sep, maxsplit=1)`: one element when `sep` does not occur,
otherwise the part before and the part after the first occurrence. -/
def pySplit2 (sep : String) (s : String) : List String :=
  match splitFirstAux sep.data s.data with
  | none => [s]
  | some (a, b) => [String.mk a, String.mk b]

/-- Decimal digits to a number, failing on empty input or a non-digit. -/
def natOfDigits (cs : List Char) : Option Nat :=
  match cs with
  | [] => none
  | _ => go cs 0
where
  go : List Char → Nat → Option Nat
    | [], acc => some acc
    | c :: r, acc => if c.isDigit then go r (acc * 10 + (c.toNat - 48)) else none

/-- Python `int(str)` on the strings this program feeds it (an optional
minus sign and decimal digits); failure is `none` (a `ValueError`). -/
def pyInt (s : String) : Option Int :=
  match s.data with
  | '-' :: rest => (natOfDigits rest).map (fun n => -(n : Int))
  | cs => (natOfDigits cs).map (fun n => (n : Int))

/-- Python `str.lower()` (ASCII range, which is all this program needs). -/
def pyLower (s : String) : String := String.mk (s.data.map Char.toLower)

/-- Last character equals `~`. -/
def endsTilde (s : String) : Bool :=
  match s.data.getLast? with
  | some c => c == Char.ofNat 0x7E
  | none => false

/-- First character equals `i`. -/
def startsI (s : String) : Bool :=
  match s.data with
  | c :: _ => c == Char.ofNat 0x69
  | [] => false

/-- Python `str.encode(ASCII)`: byte values of the characters, failing
with a `UnicodeEncodeError` (a `ValueError`) on code points above 127. -/
def encodeAscii (s : String) : Except PyErr (List Nat) :=
  if s.data.all (fun c => c.toNat < 128) then .ok (s.data.map Char.toNat)
  else .error .valueError

/-- Embedding of `BoxSpec.__init__` (lines 1054-1096): parse a selector
string.  The empty string yields a selector with no constraints; `i=LO..HI`
(or `i=N`) yields an index range; `type`/`itype`/`TYPE` with optional
trailing `~` yield a type constraint with the corresponding modifiers;
anything else raises `InvalidBoxSpec`. -/
def BoxSpec.ofString (boxspec : String) : Except PyErr BoxSpec :=
  let base : BoxSpec := ⟨none, false, false, true, none, none⟩
  if boxspec.length = 0 then .ok base
  else
    match pySplit2 "=" boxspec with
    | [prop, val] =>
      if prop = "i" then
        let parseLim (t : String) : Except PyErr (Option Int) :=
          if t.length = 0 then .ok none
          else match pyInt t with
            | some v => .ok (some v)
            | none => .error .invalidBoxSpec
        match pySplit2 ".." val with
        | [l0] => do
          let lo ← parseLim l0
          .ok { base with indexRange := some (lo, lo) }
        | [l0, l1] => do
          let lo ← parseLim l0
          let hi ← parseLim l1
          .ok { base with indexRange := some (lo, hi) }
        | _ => .error .invalidBoxSpec
      else
        let propLower := pyLower prop
        if propLower = "type" ∨ propLower = "itype" ∨ propLower = "type~" ∨
            propLower = "itype~" then
          let wild := endsTilde propLower
          let prop1 := if wild then String.mk prop.data.dropLast else prop
          let ci := startsI propLower
          let prop2 := if ci then String.mk (prop1.data.drop 1) else prop1
          do
            let bt ← encodeAscii (if ci then pyLower val else val)
            .ok { base with
                  boxtype := some bt
                  typeIsWildcard := wild
                  typeCaseInsensitive := ci
                  typeIncludesBrobs := prop2 ≠ "TYPE" }
        else .error .invalidBoxSpec
    | _ => .error .invalidBoxSpec

/-- Embedding of the `CompressionOpts` object with the defaults of its
constructor (lines 1656-1687). -/
structure CompressionOpts where
  effort : Nat := 11
  compressWhen : Nat := 1
  compressBoxes : Option (List BoxSpec) := none
  recompress : Bool := false
  decompressWhen : Nat := 100
  decompressBoxes : Option (List BoxSpec) := none
  decompressMax : Int := -1
  protectJxl : Bool := true
  deriving DecidableEq, Repr

/-- The class constants of `CompressionOpts`. -/
def COMPRESS_NEVER : Nat := 1
def COMPRESS_AUTO : Nat := 2
def COMPRESS_ALWAYS : Nat := 3
def DECOMPRESS_NEVER : Nat := 100
def DECOMPRESS_ALWAYS : Nat := 101

/-- Embedding of `CompressionOpts._isProtectedType` (lines 1709-1710). -/
def CompressionOpts.isProtectedType (boxtype : List Nat) : Bool :=
  ((boxtype.map lowerByte).take 3 == [0x6A, 0x78, 0x6C])
    || boxtype == [0x66, 0x74, 0x79, 0x70]
    || boxtype == [0x6A, 0x62, 0x72, 0x64]

/-- Embedding of `CompressionOpts.getAction` (lines 1712-1752).  The inline
`self.compressBoxes is None or any(...)` tests coincide with `scanMatch`. -/
def CompressionOpts.getAction (o : CompressionOpts) (i : Int) (box : BoxDetails)
    (innerType : Option (List Nat)) (inst : Int) : Nat :=
  if decide (o.compressWhen ≠ COMPRESS_NEVER)
      && ((!o.protectJxl && decide (o.compressWhen ≠ COMPRESS_AUTO))
          || !CompressionOpts.isProtectedType box.boxtype)
      && (o.recompress || decide (box.boxtype ≠ brobType)) then
    if scanMatch o.compressBoxes i box innerType inst then o.compressWhen
    else
      if decide (o.decompressWhen ≠ DECOMPRESS_NEVER) && decide (box.boxtype = brobType) then
        if scanMatch o.decompressBoxes i box innerType inst then DECOMPRESS_ALWAYS
        else COMPRESS_NEVER
      else COMPRESS_NEVER
  else
    if decide (o.decompressWhen ≠ DECOMPRESS_NEVER) && decide (box.boxtype = brobType) then
      if scanMatch o.decompressBoxes i box innerType inst then DECOMPRESS_ALWAYS
      else COMPRESS_NEVER
    else COMPRESS_NEVER

/-- The claimed enabling condition for compression in
`CompressionOpts.getAction`: compression is configured, the box type is
allowed under `protectJxl`, `brob` boxes need `recompress`, and the compress
selector list is null or accepts the box. -/
def compressCriteria (o : CompressionOpts) (i : Int) (box : BoxDetails)
    (it : Option (List Nat)) (inst : Int) : Prop :=
  o.compressWhen ≠ COMPRESS_NEVER
  ∧ ((o.protectJxl = false ∧ o.compressWhen ≠ COMPRESS_AUTO)
      ∨ CompressionOpts.isProtectedType box.boxtype = false)
  ∧ (o.recompress = true ∨ box.boxtype ≠ brobType)
  ∧ scanMatch o.compressBoxes i box it inst = true

/-- The claimed enabling condition for decompression in
`CompressionOpts.getAction`: decompression is configured, the outer type is
`brob`, and the decompress selector list is null or accepts the box. -/
def decompressCriteria (o : CompressionOpts) (i : Int) (box : BoxDetails)
    (it : Option (List Nat)) (inst : Int) : Prop :=
  o.decompressWhen ≠ DECOMPRESS_NEVER
  ∧ box.boxtype = brobType
  ∧ scanMatch o.decompressBoxes i box it inst = true

instance (o : CompressionOpts) (i : Int) (box : BoxDetails)
    (it : Option (List Nat)) (inst : Int) :
    Decidable (compressCriteria o i box it inst) := by
  unfold compressCriteria; infer_instance

instance (o : CompressionOpts) (i : Int) (box : BoxDetails)
    (it : Option (List Nat)) (inst : Int) :
    Decidable (decompressCriteria o i box it inst) := by
  unfold decompressCriteria; infer_instance

theorem getAction_eq (o : CompressionOpts) (i : Int) (box : BoxDetails)
    (it : Option (List Nat)) (inst : Int) :
    o.getAction i box it inst =
      if compressCriteria o i box it inst then o.compressWhen
      else if decompressCriteria o i box it inst then DECOMPRESS_ALWAYS
      else COMPRESS_NEVER := by
  have hbridge :
      ((decide (o.compressWhen ≠ COMPRESS_NEVER)
          && ((!o.protectJxl && decide (o.compressWhen ≠ COMPRESS_AUTO))
              || !CompressionOpts.isProtectedType box.boxtype)
          && (o.recompress || decide (box.boxtype ≠ brobType))) = true
        ∧ scanMatch o.compressBoxes i box it inst = true)
      ↔ compressCriteria o i box it inst := by
    unfold compressCriteria
    simp only [Bool.and_eq_true, Bool.or_eq_true, decide_eq_true_eq,
      Bool.not_eq_true']
    tauto
  have hbridge2 :
      ((decide (o.decompressWhen ≠ DECOMPRESS_NEVER)
          && decide (box.boxtype = brobType)) = true
        ∧ scanMatch o.decompressBoxes i box it inst = true)
      ↔ decompressCriteria o i box it inst := by
    unfold decompressCriteria
    simp only [Bool.and_eq_true, decide_eq_true_eq]
    tauto
  unfold CompressionOpts.getAction
  split_ifs <;> tauto

/-- C6: `getAction` returns `compressWhen` exactly when the compression
criteria hold (a nonzero compress mode, the `protectJxl` gate, the
`recompress` gate for `brob` boxes, and a null-or-accepting selector list);
failing that it returns `DECOMPRESS_ALWAYS` exactly when the decompression
criteria hold (decompression configured, outer type `brob` and a
null-or-accepting selector list); otherwise `COMPRESS_NEVER` (no action).
Compression takes priority over decompression, and with `recompress` false
a `brob` box is never a compression candidate. -/
theorem getAction_contract (o : CompressionOpts) (i : Int) (box : BoxDetails)
    (it : Option (List Nat)) (inst : Int)
    (hc : o.compressWhen = COMPRESS_NEVER ∨ o.compressWhen = COMPRESS_AUTO
        ∨ o.compressWhen = COMPRESS_ALWAYS) :
    ((o.getAction i box it inst = o.compressWhen ∧ o.compressWhen ≠ COMPRESS_NEVER)
        ↔ compressCriteria o i box it inst)
    ∧ (¬ compressCriteria o i box it inst →
        (o.getAction i box it inst = DECOMPRESS_ALWAYS
          ↔ decompressCriteria o i box it inst))
    ∧ (¬ compressCriteria o i box it inst → ¬ decompressCriteria o i box it inst →
        o.getAction i box it inst = COMPRESS_NEVER)
    ∧ (o.recompress = false → box.boxtype = brobType →
        (o.getAction i box it inst = COMPRESS_NEVER
          ∨ o.getAction i box it inst = DECOMPRESS_ALWAYS)) := by
  have hN : COMPRESS_NEVER = 1 := rfl
  have hA : COMPRESS_AUTO = 2 := rfl
  have hW : COMPRESS_ALWAYS = 3 := rfl
  have hDA : DECOMPRESS_ALWAYS = 101 := rfl
  rw [hN, hA, hW] at hc
  have hkey := getAction_eq o i box it inst
  refine ⟨?_, ?_, ?_, ?_⟩
  · constructor
    · rintro ⟨hact, hne⟩
      by_cases hC : compressCriteria o i box it inst
      · exact hC
      · exfalso
        rw [hkey, if_neg hC] at hact
        rw [hN] at hne
        by_cases hD : decompressCriteria o i box it inst
        · rw [if_pos hD, hDA] at hact
          omega
        · rw [if_neg hD, hN] at hact
          omega
    · intro hC
      exact ⟨by rw [hkey, if_pos hC], hC.1⟩
  · intro hC
    rw [hkey, if_neg hC]
    by_cases hD : decompressCriteria o i box it inst
    · simp [hD]
    · simp [hD]
      decide
  · intro hC hD
    rw [hkey, if_neg hC, if_neg hD]
  · intro hrec hbt
    by_cases hC : compressCriteria o i box it inst
    · exfalso
      rcases hC.2.2.1 with h | h
      · rw [hrec] at h; cases h
      · exact h hbt
    · rw [hkey, if_neg hC]
      by_cases hD : decompressCriteria o i box it inst
      · right; rw [if_pos hD]
      · left; rw [if_neg hD]

/-- Witness for `getAction_contract`: with compression and decompression
both configured and `recompress` false, a `brob` box yields either no
action or decompression, and here concretely decompression. -/
theorem getAction_contract_witness :
    CompressionOpts.getAction
        { compressWhen := 3, decompressWhen := 101 } 0
        ⟨0, 20, [0x62, 0x72, 0x6F, 0x62], false⟩ (some [0x45, 0x78, 0x69, 0x66]) 0 = 1
      ∨ CompressionOpts.getAction
        { compressWhen := 3, decompressWhen := 101 } 0
        ⟨0, 20, [0x62, 0x72, 0x6F, 0x62], false⟩ (some [0x45, 0x78, 0x69, 0x66]) 0 = 101 :=
  (getAction_contract { compressWhen := 3, decompressWhen := 101 } 0
      ⟨0, 20, [0x62, 0x72, 0x6F, 0x62], false⟩ (some [0x45, 0x78, 0x69, 0x66]) 0
      (by right; right; rfl)).2.2.2 rfl rfl

/-- C5: a scan treats a box as matching exactly when the selector list is
null (matches everything) or some selector accepts it, an empty list
matching nothing; `BoxSpec.matches` uses the inner type as effective type
when the selector opts into brob-aware matching and an inner type is
present and the outer type otherwise, lowercases for case-insensitive
selectors, glob-matches for wildcard selectors, compares bytes for equality
otherwise, and treats absent constraints as matching anything. -/
theorem scan_selector_matching (specs : List BoxSpec) (i : Int) (box : BoxDetails)
    (it : Option (List Nat)) (inst : Int) (sp : BoxSpec) :
    scanMatch none i box it inst = true
    ∧ scanMatch (some []) i box it inst = false
    ∧ scanMatch (some specs) i box it inst = (specs.any fun b => b.matches i box it inst)
    ∧ (∀ t, sp.typeIncludesBrobs = true → it = some t → sp.effectiveType box it = t)
    ∧ (sp.typeIncludesBrobs = false ∨ it = none → sp.effectiveType box it = box.boxtype)
    ∧ (sp.boxtype = none → sp.indexRange = none → sp.instanceRange = none →
        sp.matches i box it inst = true)
    ∧ (∀ pat, sp.boxtype = some pat → sp.indexRange = none → sp.instanceRange = none →
        sp.matches i box it inst =
          (if sp.typeIsWildcard then
            globMatch pat (if sp.typeCaseInsensitive
                           then (sp.effectiveType box it).map lowerByte
                           else sp.effectiveType box it)
          else
            (if sp.typeCaseInsensitive
             then (sp.effectiveType box it).map lowerByte
             else sp.effectiveType box it) == pat)) := by
  refine ⟨rfl, rfl, rfl, ?_, ?_, ?_, ?_⟩
  · intro t h1 h2
    subst h2
    simp [BoxSpec.effectiveType, h1]
  · intro h
    rcases h with h | h
    · cases it <;> simp [BoxSpec.effectiveType, h]
    · subst h
      cases hb : sp.typeIncludesBrobs <;> simp [BoxSpec.effectiveType]
  · intro h1 h2 h3
    unfold BoxSpec.matches
    rw [h1, h2, h3]
    rfl
  · intro pat h1 h2 h3
    unfold BoxSpec.matches
    rw [h1, h2, h3]
    rfl

/-- Witness for `scan_selector_matching`: concrete instances of the
effective-type, empty-constraint and type-comparison conjuncts. -/
theorem scan_selector_matching_witness :
    (BoxSpec.mk (some [0x45, 0x78, 0x69, 0x66]) false false true none none).effectiveType
        ⟨0, 20, [0x62, 0x72, 0x6F, 0x62], false⟩ (some [0x45, 0x78, 0x69, 0x66])
      = [0x45, 0x78, 0x69, 0x66]
    ∧ (BoxSpec.mk (some [0x45, 0x78, 0x69, 0x66]) false false false none none).effectiveType
        ⟨0, 20, [0x62, 0x72, 0x6F, 0x62], false⟩ (some [0x45, 0x78, 0x69, 0x66])
      = [0x62, 0x72, 0x6F, 0x62]
    ∧ (BoxSpec.mk none false false true none none).matches 7
        ⟨0, 20, [0x62, 0x72, 0x6F, 0x62], false⟩ none 3 = true
    ∧ (BoxSpec.mk (some [0x6A, 0x78, 0x6C, 0x2A]) true true false none none).matches 0
        ⟨0, 20, [0x4A, 0x58, 0x4C, 0x43], false⟩ (some [0x4A, 0x58, 0x4C, 0x43]) 0
      = globMatch [0x6A, 0x78, 0x6C, 0x2A] [0x6A, 0x78, 0x6C, 0x63] := by
  refine ⟨?_, ?_, ?_, ?_⟩
  · exact (scan_selector_matching [] 0 ⟨0, 20, [0x62, 0x72, 0x6F, 0x62], false⟩
      (some [0x45, 0x78, 0x69, 0x66]) 0
      (BoxSpec.mk (some [0x45, 0x78, 0x69, 0x66]) false false true none none)).2.2.2.1
      [0x45, 0x78, 0x69, 0x66] rfl rfl
  · exact (scan_selector_matching [] 0 ⟨0, 20, [0x62, 0x72, 0x6F, 0x62], false⟩
      (some [0x45, 0x78, 0x69, 0x66]) 0
      (BoxSpec.mk (some [0x45, 0x78, 0x69, 0x66]) false false false none none)).2.2.2.2.1
      (Or.inl rfl)
  · exact (scan_selector_matching [] 7 ⟨0, 20, [0x62, 0x72, 0x6F, 0x62], false⟩
      none 3 (BoxSpec.mk none false false true none none)).2.2.2.2.2.1 rfl rfl rfl
  · have := (scan_selector_matching [] 0 ⟨0, 20, [0x4A, 0x58, 0x4C, 0x43], false⟩
      (some [0x4A, 0x58, 0x4C, 0x43]) 0
      (BoxSpec.mk (some [0x6A, 0x78, 0x6C, 0x2A]) true true false none none)).2.2.2.2.2.2
      [0x6A, 0x78, 0x6C, 0x2A] rfl rfl rfl
    rw [this]
    decide

/-- C10: constructing a `BoxSpec` from the empty string succeeds, yields a
selector with no constraints, and that selector matches every box at every
index, inner type and instance count. -/
theorem boxSpec_empty_matches_all :
    BoxSpec.ofString "" = .ok ⟨none, false, false, true, none, none⟩
    ∧ ∀ (i : Int) (box : BoxDetails) (it : Option (List Nat)) (inst : Int),
        (BoxSpec.mk none false false true none none).matches i box it inst = true := by
  constructor
  · rfl
  · intro i box it inst
    rfl

/-- C2: `BoxReader.nextBox` parses a header by reading 8 bytes (a zero-byte
read signals end of stream, a short non-empty read is `InvalidBmff`),
decoding the length as a big-endian u32; length 1 makes it read 8 more bytes
as a big-endian u64 length with `hasExtendedSize` set (a 16-byte header);
length 0 marks the final box extending to EOF (returned with `length = 0`);
it raises `InvalidBmff` when the 4 type bytes are not all printable ASCII or
when the length is positive but smaller than the header byte count; and on
the first box only it raises `RawJxl` when the 8 header bytes begin `FF 0A`
and bytes 4..8 are not a valid 4CC. -/
theorem nextBox_header_contract (first : Bool) (s : List Nat) :
    (nextBoxParse first [] = .ok none)
    ∧ (s.length ≠ 0 → s.length < 8 → nextBoxParse first s = .error .invalidBmff)
    ∧ (8 ≤ s.length → s.take 2 = [0xFF, 0x0A] →
        isValid4cc ((s.take 8).drop 4) = false →
        nextBoxParse true s = .error .rawJxl)
    ∧ (8 ≤ s.length →
        ¬(first = true ∧ s.take 2 = [0xFF, 0x0A] ∧ isValid4cc ((s.take 8).drop 4) = false) →
        (beVal (s.take 4) = 0 ∨ 8 ≤ beVal (s.take 4)) →
        isValid4cc ((s.take 8).drop 4) = true →
        nextBoxParse first s = .ok (some ⟨beVal (s.take 4), (s.take 8).drop 4, false, 8⟩))
    ∧ (16 ≤ s.length →
        ¬(first = true ∧ s.take 2 = [0xFF, 0x0A] ∧ isValid4cc ((s.take 8).drop 4) = false) →
        beVal (s.take 4) = 1 →
        (beVal ((s.drop 8).take 8) = 0 ∨ 16 ≤ beVal ((s.drop 8).take 8)) →
        isValid4cc ((s.take 8).drop 4) = true →
        nextBoxParse first s =
          .ok (some ⟨beVal ((s.drop 8).take 8), (s.take 8).drop 4, true, 16⟩))
    ∧ (8 ≤ s.length →
        ¬(first = true ∧ s.take 2 = [0xFF, 0x0A] ∧ isValid4cc ((s.take 8).drop 4) = false) →
        isValid4cc ((s.take 8).drop 4) = false →
        nextBoxParse first s = .error .invalidBmff)
    ∧ (8 ≤ s.length →
        ¬(first = true ∧ s.take 2 = [0xFF, 0x0A] ∧ isValid4cc ((s.take 8).drop 4) = false) →
        2 ≤ beVal (s.take 4) → beVal (s.take 4) < 8 →
        nextBoxParse first s = .error .invalidBmff)
    ∧ (8 ≤ s.length → s.length < 16 →
        ¬(first = true ∧ s.take 2 = [0xFF, 0x0A] ∧ isValid4cc ((s.take 8).drop 4) = false) →
        beVal (s.take 4) = 1 →
        nextBoxParse first s = .error .invalidBmff)
    ∧ (16 ≤ s.length →
        ¬(first = true ∧ s.take 2 = [0xFF, 0x0A] ∧ isValid4cc ((s.take 8).drop 4) = false) →
        beVal (s.take 4) = 1 →
        0 < beVal ((s.drop 8).take 8) → beVal ((s.drop 8).take 8) < 16 →
        isValid4cc ((s.take 8).drop 4) = true →
        nextBoxParse first s = .error .invalidBmff) := by
  have htk2 : (s.take 8).take 2 = s.take 2 := by
    rw [List.take_take]; norm_num
  refine ⟨rfl, ?_, ?_, ?_, ?_, ?_, ?_, ?_, ?_⟩
  · intro h0 h8
    unfold nextBoxParse
    simp [h0, h8]
  · intro h8 hff hinv
    unfold nextBoxParse
    have h0 : ¬ s.length = 0 := by omega
    have hlt : ¬ s.length < 8 := by omega
    simp [h0, hlt, htk2, hff, hinv]
  · intro h8 hraw hlen hv
    have h44 : beVal ((s.take 8).take 4) = beVal (s.take 4) := by
      rw [List.take_take]; norm_num
    unfold nextBoxParse
    have h0 : ¬ s.length = 0 := by omega
    have hlt : ¬ s.length < 8 := by omega
    have hrawb : (first && (s.take 8).take 2 == [0xFF, 0x0A] && !isValid4cc ((s.take 8).drop 4)) = false := by
      rw [htk2, hv]
      cases first <;> simp
    simp only [h0, if_false, hlt, hrawb, Bool.false_eq_true, h44, hv]
    have hne1 : ¬ beVal (s.take 4) = 1 := by omega
    have hnl : ¬ (beVal (s.take 4) > 0 && beVal (s.take 4) < 8) = true := by simp; omega
    simp [hne1, hnl, hv]
  · intro h16 hraw h1 hext hv
    have h44 : beVal ((s.take 8).take 4) = beVal (s.take 4) := by
      rw [List.take_take]; norm_num
    unfold nextBoxParse
    have h0 : ¬ s.length = 0 := by omega
    have hlt : ¬ s.length < 8 := by omega
    have hlt16 : ¬ s.length < 16 := by omega
    have hrawb : (first && (s.take 8).take 2 == [0xFF, 0x0A] && !isValid4cc ((s.take 8).drop 4)) = false := by
      rw [htk2, hv]
      cases first <;> simp
    simp only [h0, if_false, hlt, hrawb, Bool.false_eq_true, h44, h1, if_true, hlt16, if_pos rfl]
    have hnl : ¬ (beVal ((s.drop 8).take 8) > 0 && beVal ((s.drop 8).take 8) < 16) = true := by
      simp; omega
    simp [hnl, hv]
  · intro h8 hraw hinv
    unfold nextBoxParse
    have h0 : ¬ s.length = 0 := by omega
    have hlt : ¬ s.length < 8 := by omega
    have hrawb : (first && (s.take 8).take 2 == [0xFF, 0x0A] && !isValid4cc ((s.take 8).drop 4)) = false := by
      rw [htk2, hinv]
      cases first with
      | false => simp
      | true =>
        simp only [Bool.true_and]
        by_cases hf : s.take 2 = [0xFF, 0x0A]
        · exact absurd ⟨rfl, hf, hinv⟩ hraw
        · simp [hf]
    simp only [h0, if_false, hlt, hrawb, Bool.false_eq_true]
    by_cases h1 : beVal ((s.take 8).take 4) = 1
    · by_cases h16 : s.length < 16 <;> simp [h1, h16, hinv]
    · simp [h1, hinv]
  · intro h8 hraw h2 hlt8
    have h44 : beVal ((s.take 8).take 4) = beVal (s.take 4) := by
      rw [List.take_take]; norm_num
    unfold nextBoxParse
    have h0 : ¬ s.length = 0 := by omega
    have hslt : ¬ s.length < 8 := by omega
    by_cases hv : isValid4cc ((s.take 8).drop 4)
    · have hrawb : (first && (s.take 8).take 2 == [0xFF, 0x0A] && !isValid4cc ((s.take 8).drop 4)) = false := by
        rw [htk2, hv]; cases first <;> simp
      simp only [h0, if_false, hslt, hrawb, Bool.false_eq_true, h44]
      have hne1 : ¬ beVal (s.take 4) = 1 := by omega
      have hl : (beVal (s.take 4) > 0 && beVal (s.take 4) < 8) = true := by simp; omega
      simp [hne1, hl, hv]
    · have hrawb : (first && (s.take 8).take 2 == [0xFF, 0x0A] && !isValid4cc ((s.take 8).drop 4)) = false := by
        rw [htk2]
        simp only [Bool.eq_false_iff, ne_eq] at hv
        cases first with
        | false => simp
        | true =>
          simp only [Bool.true_and]
          by_cases hf : s.take 2 = [0xFF, 0x0A]
          · exact absurd ⟨rfl, hf, by simpa using hv⟩ hraw
          · simp [hf]
      simp only [h0, if_false, hslt, hrawb, Bool.false_eq_true, h44]
      have hne1 : ¬ beVal (s.take 4) = 1 := by omega
      simp [hne1, hv]
  · intro h8 hlt16 hraw h1
    have h44 : beVal ((s.take 8).take 4) = beVal (s.take 4) := by
      rw [List.take_take]; norm_num
    unfold nextBoxParse
    have h0 : ¬ s.length = 0 := by omega
    have hslt : ¬ s.length < 8 := by omega
    by_cases hv : isValid4cc ((s.take 8).drop 4)
    · have hrawb : (first && (s.take 8).take 2 == [0xFF, 0x0A] && !isValid4cc ((s.take 8).drop 4)) = false := by
        rw [htk2, hv]; cases first <;> simp
      simp [h0, hslt, hrawb, h44, h1, hlt16]
    · have hrawb : (first && (s.take 8).take 2 == [0xFF, 0x0A] && !isValid4cc ((s.take 8).drop 4)) = false := by
        rw [htk2]
        simp only [Bool.eq_false_iff, ne_eq] at hv
        cases first with
        | false => simp
        | true =>
          simp only [Bool.true_and]
          by_cases hf : s.take 2 = [0xFF, 0x0A]
          · exact absurd ⟨rfl, hf, by simpa using hv⟩ hraw
          · simp [hf]
      simp [h0, hslt, hrawb, h44, h1, hlt16]
  · intro h16 hraw h1 hpos hlt hv
    have h44 : beVal ((s.take 8).take 4) = beVal (s.take 4) := by
      rw [List.take_take]; norm_num
    unfold nextBoxParse
    have h0 : ¬ s.length = 0 := by omega
    have hslt : ¬ s.length < 8 := by omega
    have hslt16 : ¬ s.length < 16 := by omega
    have hrawb : (first && (s.take 8).take 2 == [0xFF, 0x0A] && !isValid4cc ((s.take 8).drop 4)) = false := by
      rw [htk2, hv]; cases first <;> simp
    simp only [h0, if_false, hslt, hrawb, Bool.false_eq_true, h44, h1, if_true, hslt16, if_pos rfl]
    have hl : (beVal ((s.drop 8).take 8) > 0 && beVal ((s.drop 8).take 8) < 16) = true := by
      simp; omega
    simp [hl, hv]

/-- Witness for `nextBox_header_contract`: concrete instances exercising the
EOF, truncation, raw-codestream, normal, extended, invalid-type and
short-length conjuncts. -/
theorem nextBox_header_contract_witness :
    nextBoxParse true [] = .ok none
    ∧ nextBoxParse true [1, 2, 3] = .error .invalidBmff
    ∧ nextBoxParse true [0xFF, 0x0A, 0, 0, 0, 0, 0, 0] = .error .rawJxl
    ∧ nextBoxParse true [0, 0, 0, 8, 65, 65, 65, 65] = .ok (some ⟨8, [65, 65, 65, 65], false, 8⟩)
    ∧ nextBoxParse true [0, 0, 0, 1, 66, 66, 66, 66, 0, 0, 0, 0, 0, 0, 0, 16] =
        .ok (some ⟨16, [66, 66, 66, 66], true, 16⟩)
    ∧ nextBoxParse false [0, 0, 0, 8, 1, 2, 3, 4] = .error .invalidBmff
    ∧ nextBoxParse false [0, 0, 0, 5, 65, 65, 65, 65] = .error .invalidBmff
    ∧ nextBoxParse false [0, 0, 0, 1, 65, 65, 65, 65] = .error .invalidBmff
    ∧ nextBoxParse false [0, 0, 0, 1, 65, 65, 65, 65, 0, 0, 0, 0, 0, 0, 0, 5] =
        .error .invalidBmff := by
  refine ⟨(nextBox_header_contract true []).1,
    (nextBox_header_contract true [1, 2, 3]).2.1 (by decide) (by decide),
    (nextBox_header_contract true [0xFF, 0x0A, 0, 0, 0, 0, 0, 0]).2.2.1
      (by decide) (by decide) (by decide),
    (nextBox_header_contract true [0, 0, 0, 8, 65, 65, 65, 65]).2.2.2.1
      (by decide) (by decide) (by decide) (by decide),
    (nextBox_header_contract true [0, 0, 0, 1, 66, 66, 66, 66, 0, 0, 0, 0, 0, 0, 0, 16]).2.2.2.2.1
      (by decide) (by decide) (by decide) (by decide) (by decide),
    (nextBox_header_contract false [0, 0, 0, 8, 1, 2, 3, 4]).2.2.2.2.2.1
      (by decide) (by decide) (by decide),
    (nextBox_header_contract false [0, 0, 0, 5, 65, 65, 65, 65]).2.2.2.2.2.2.1
      (by decide) (by decide) (by decide) (by decide),
    (nextBox_header_contract false [0, 0, 0, 1, 65, 65, 65, 65]).2.2.2.2.2.2.2.1
      (by decide) (by decide) (by decide) (by decide),
    (nextBox_header_contract false [0, 0, 0, 1, 65, 65, 65, 65, 0, 0, 0, 0, 0, 0, 0, 5]).2.2.2.2.2.2.2.2
      (by decide) (by decide) (by decide) (by decide) (by decide) (by decide)⟩

/-- C3: `writeBoxHeader` writes a zero u32 size then the type for a negative
payload size, a big-endian u32 of `8 + payloadSize` then the type when that
fits in 32 bits, and otherwise `00 00 00 01`, the type, then a big-endian
u64 of `16 + payloadSize`; and for a nonnegative payload size the written
header followed by the payload parses back through the `nextBox` header
parser to a box of the same type whose length is `headerBytes + payloadSize`. -/
theorem writeBoxHeader_contract (tp : List Nat) (p : Int) (htp : isValid4cc tp = true) :
    (p < 0 → writeBoxHeader tp p = [0, 0, 0, 0] ++ tp)
    ∧ (0 ≤ p → 8 + p ≤ (BIG_SIZE : Int) →
        writeBoxHeader tp p = beBytes 4 (8 + p).toNat ++ tp)
    ∧ ((BIG_SIZE : Int) < 8 + p →
        writeBoxHeader tp p = beBytes 4 1 ++ tp ++ beBytes 8 (16 + p).toNat)
    ∧ (∀ payload : List Nat, 0 ≤ p → payload.length = p.toNat → 16 + p < 2 ^ 64 →
        ∃ h : ParsedHeader,
          nextBoxParse true (writeBoxHeader tp p ++ payload) = .ok (some h)
          ∧ h.boxtype = tp ∧ (h.length : Int) = (h.headerBytes : Int) + p) := by
  refine ⟨?_, ?_, ?_, ?_⟩
  · intro hneg
    unfold writeBoxHeader
    simp [hneg]
  · intro h0 hfit
    unfold writeBoxHeader
    simp [not_lt.mpr h0, hfit]
  · intro hbig
    unfold writeBoxHeader
    have h0 : ¬ p < 0 := by
      have hBv : (BIG_SIZE : Int) = 4294967295 := by norm_num [BIG_SIZE]
      omega
    simp [h0, not_le.mpr hbig]
  · intro payload h0 hplen h64
    by_cases hfit : 8 + p ≤ (BIG_SIZE : Int)
    · refine ⟨⟨(8 + p).toNat, tp, false, 8⟩, ?_, rfl, ?_⟩
      · have hw : writeBoxHeader tp p = beBytes 4 (8 + p).toNat ++ tp := by
          unfold writeBoxHeader
          simp [not_lt.mpr h0, hfit]
        rw [hw, List.append_assoc]
        apply nextBoxParse_u32
        · exact htp
        · omega
        · have : (BIG_SIZE : Int) = (BIG_SIZE : Nat) := rfl
          omega
      · simp
        omega
    · refine ⟨⟨(16 + p).toNat, tp, true, 16⟩, ?_, rfl, ?_⟩
      · have hw : writeBoxHeader tp p = beBytes 4 1 ++ tp ++ beBytes 8 (16 + p).toNat := by
          unfold writeBoxHeader
          simp [not_lt.mpr h0, hfit]
        rw [hw]
        have hshape : beBytes 4 1 ++ tp ++ beBytes 8 (16 + p).toNat ++ payload =
            beBytes 4 1 ++ (tp ++ (beBytes 8 (16 + p).toNat ++ payload)) := by simp
        rw [hshape]
        apply nextBoxParse_u64
        · exact htp
        · have hBv : (BIG_SIZE : Int) = 4294967295 := by norm_num [BIG_SIZE]
          omega
        · omega
      · simp
        omega

/-- Witness for `writeBoxHeader_contract` at a concrete type and size. -/
theorem writeBoxHeader_contract_witness :
    writeBoxHeader [97, 98, 99, 100] 3 = [0, 0, 0, 11, 97, 98, 99, 100]
    ∧ ∃ h : ParsedHeader,
        nextBoxParse true (writeBoxHeader [97, 98, 99, 100] 3 ++ [1, 2, 3]) = .ok (some h)
        ∧ h.boxtype = [97, 98, 99, 100] ∧ (h.length : Int) = (h.headerBytes : Int) + 3 := by
  constructor
  · have := (writeBoxHeader_contract [97, 98, 99, 100] 3 (by decide)).2.1
      (by decide) (by decide)
    rw [this]
    decide
  · exact (writeBoxHeader_contract [97, 98, 99, 100] 3 (by decide)).2.2.2
      [1, 2, 3] (by decide) (by decide) (by decide)

/-- The loop body of `_copyAndDecompress` (lines 801-822) with the Brotli
decoder abstracted: the decoder is an external library, so its per-block
outputs are represented by their sizes.  `decompressMax` and the running
total `wrote` are threaded exactly as in the source: after each decoded
block the cumulative size is checked and `TooMuchData` raised when
`decompressMax > 0` and the total exceeds it. -/
def decompressLoop (decompressMax : Int) : List Nat → Nat → Except PyErr Nat
  | [], wrote => .ok wrote
  | b :: bs, wrote =>
    let w := wrote + b
    if decompressMax > 0 ∧ (w : Int) > decompressMax then .error .tooMuchData
    else decompressLoop decompressMax bs w

/-- Embedding of the size-cap behaviour of `_copyAndDecompress`
(lines 788-822): decoded block sizes in, total bytes written out, raising
`TooMuchData` exactly where the source does. -/
def copyAndDecompressCheck (decodedSizes : List Nat) (decompressMax : Int) :
    Except PyErr Nat :=
  decompressLoop decompressMax decodedSizes 0

theorem decompressLoop_nonpositive (m : Int) (hm : m ≤ 0) :
    ∀ (sizes : List Nat) (wrote : Nat),
      decompressLoop m sizes wrote = .ok (wrote + sizes.sum) := by
  intro sizes
  induction sizes with
  | nil => intro wrote; simp [decompressLoop]
  | cons b bs ih =>
    intro wrote
    unfold decompressLoop
    rw [if_neg (by omega)]
    rw [ih (wrote + b)]
    simp
    omega

/-- C7 (amended): any nonpositive `decompressMax` (−1 as documented, and
also 0) disables the decompression size cap: the decompress loop never
raises `TooMuchData` and writes every decoded byte.  No value of
`decompressMax` disables decompression itself: `getAction` does not consult
`decompressMax` (see the accompanying counterexample). -/
theorem decompressMax_nonpositive_disables_cap (sizes : List Nat) (m : Int)
    (hm : m ≤ 0) :
    copyAndDecompressCheck sizes m = .ok sizes.sum := by
  unfold copyAndDecompressCheck
  rw [decompressLoop_nonpositive m hm sizes 0]
  simp

/-- Witness for `decompressMax_nonpositive_disables_cap` at the documented
value −1. -/
theorem decompressMax_nonpositive_disables_cap_witness :
    copyAndDecompressCheck [3, 4] (-1) = .ok 7 :=
  decompressMax_nonpositive_disables_cap [3, 4] (-1) (by decide)

/-- C7 (counterexample): `decompressMax = 0` does not disable decompression.
`getAction` never consults `decompressMax`, so with `decompressWhen`
configured a `brob` box is still decompressed (`DECOMPRESS_ALWAYS = 101`),
and the decompress loop happily writes decoded bytes (here 5 of them)
without raising, because the cap test requires `decompressMax > 0`. -/
theorem decompressMax_zero_counterexample :
    CompressionOpts.getAction { decompressWhen := 101, decompressMax := 0 } 0
        ⟨0, 20, [0x62, 0x72, 0x6F, 0x62], false⟩ (some [0x45, 0x78, 0x69, 0x66]) 0 = 101
    ∧ copyAndDecompressCheck [5] 0 = .ok 5 := by
  constructor
  · decide
  · decide

/-- `CompressionOpts()` with all constructor defaults:
`compressWhen = COMPRESS_NEVER` and `decompressWhen = DECOMPRESS_NEVER`,
the passthrough configuration. -/
def defaultOpts : CompressionOpts := {}

theorem getAction_defaultOpts (i : Int) (box : BoxDetails)
    (it : Option (List Nat)) (inst : Int) :
    defaultOpts.getAction i box it inst = COMPRESS_NEVER := by
  rw [getAction_eq]
  rw [if_neg (fun hC => hC.1 rfl)]
  rw [if_neg (fun hD => hD.1 rfl)]

/-- One iteration of the `scanBoxes` loop (lines 706-716) on the remaining
bytes `s`: parse the header, and for a `brob` box perform the inner-type
peek (`readCurrentBox` of 12 or 20 bytes; on an implicit-size final box
`copyCurrentBox` reads everything to EOF).  Returns `none` at end of stream
and otherwise the parsed header together with the inner type (the outer
type for non-`brob` boxes).  A short read inside the peek raises the
builtin IOError of `copyData`; a peek of the wrong size or with an invalid
inner 4CC raises `InvalidBmff` (line 716). -/
def scanBoxStep (isFirst : Bool) (s : List Nat) :
    Except PyErr (Option (ParsedHeader × List Nat)) :=
  match nextBoxParse isFirst s with
  | .error e => .error e
  | .ok none => .ok none
  | .ok (some h) =>
    if h.boxtype = brobType then
      let want := if h.hasExtendedSize then 20 else 12
      if h.length > 0 then
        let want2 := min (h.length - h.headerBytes) 4
        if s.length < h.headerBytes + want2 then .error .ioError
        else
          let boxStart := s.take (h.headerBytes + want2)
          if boxStart.length ≠ want then .error .invalidBmff
          else if isValid4cc (boxStart.drop (boxStart.length - 4)) = false then
            .error .invalidBmff
          else .ok (some (h, boxStart.drop (boxStart.length - 4)))
      else
        if s.length ≠ want then .error .invalidBmff
        else if isValid4cc (s.drop (s.length - 4)) = false then .error .invalidBmff
        else .ok (some (h, s.drop (s.length - 4)))
    else .ok (some (h, h.boxtype))

/-- Embedding of the `scanBoxes` loop in `MODE_KEEP` with the default
`CompressionOpts()` (the passthrough configuration the claim fixes) over a
non-seekable source.  Matching boxes are copied in full (the peeked
`boxStart` bytes, then `copyCurrentBox`, lines 744-746); a short body
raises the IOError of `copyData`.  Non-matching boxes are skipped, a short
skip raising `InvalidBmff` in the read-discard seek of the next `nextBox`.
The branch taken when `getAction` requests a transform needs the external
brotli streams and would raise `NameError` without the `brotli` package; it
is unreachable here because `getAction` on the default options always
returns `COMPRESS_NEVER` (`getAction_defaultOpts`).  An implicit-size final
box is copied verbatim and ends the scan.  `seen` records the inner types
of earlier boxes (the `seen` counter); `i` is the box index and `off` the
box offset. -/
def scanKeepAux (specs : Option (List BoxSpec)) :
    Nat → Nat → Nat → List (List Nat) → List Nat → Except PyErr (List Nat)
  | 0, _, _, _, _ => .error .boxCutter
  | fuel + 1, i, off, seen, s =>
    match scanBoxStep (i == 0) s with
    | .error e => .error e
    | .ok none => .ok []
    | .ok (some (h, it)) =>
      let box : BoxDetails := ⟨off, h.length, h.boxtype, h.hasExtendedSize⟩
      let inst : Int := (seen.count it : Int)
      if scanMatch specs i box (some it) inst then
        if defaultOpts.getAction i box (some it) inst = COMPRESS_NEVER then
          if h.length > 0 then
            if s.length < h.length then .error .ioError
            else
              (scanKeepAux specs fuel (i + 1) (off + h.length) (it :: seen)
                  (s.drop h.length)).map
                (fun rest => s.take h.length ++ rest)
          else
            (scanKeepAux specs fuel (i + 1) (off + s.length) (it :: seen) []).map
              (fun rest => s ++ rest)
        else .error .nameError
      else
        if h.length > 0 then
          if s.length < h.length then .error .invalidBmff
          else scanKeepAux specs fuel (i + 1) (off + h.length) (it :: seen)
            (s.drop h.length)
        else scanKeepAux specs fuel (i + 1) (off + s.length) (it :: seen) []

/-- The keep-mode passthrough scan over a whole input. -/
def scanBoxesKeep (specs : Option (List BoxSpec)) (s : List Nat) :
    Except PyErr (List Nat) :=
  scanKeepAux specs (s.length + 1) 0 0 [] s

theorem nextBoxParse_ok_none {b : Bool} {s : List Nat}
    (h : nextBoxParse b s = .ok none) : s = [] := by
  unfold nextBoxParse at h
  by_cases h0 : s.length = 0
  · exact List.length_eq_zero.mp h0
  · rw [if_neg h0] at h
    by_cases h8 : s.length < 8
    · rw [if_pos h8] at h; cases h
    · rw [if_neg h8] at h
      by_cases hr : (b && (s.take 8).take 2 == [0xFF, 0x0A]
          && !isValid4cc ((s.take 8).drop 4)) = true
      · rw [if_pos hr] at h; cases h
      · rw [if_neg hr] at h
        simp only at h
        by_cases h1 : beVal ((s.take 8).take 4) = 1
        · rw [if_pos h1] at h
          by_cases h16 : s.length < 16
          · rw [if_pos h16] at h; cases h
          · rw [if_neg h16] at h
            simp only at h
            by_cases hv : (!isValid4cc ((s.take 8).drop 4)) = true
            · rw [if_pos hv] at h; cases h
            · rw [if_neg hv] at h
              by_cases hlt : (decide (beVal ((s.drop 8).take 8) > 0)
                  && decide (beVal ((s.drop 8).take 8) < 16)) = true
              · rw [if_pos hlt] at h; cases h
              · rw [if_neg hlt] at h; cases h
        · rw [if_neg h1] at h
          simp only at h
          by_cases hv : (!isValid4cc ((s.take 8).drop 4)) = true
          · rw [if_pos hv] at h; cases h
          · rw [if_neg hv] at h
            by_cases hlt : (decide (beVal ((s.take 8).take 4) > 0)
                && decide (beVal ((s.take 8).take 4) < 8)) = true
            · rw [if_pos hlt] at h; cases h
            · rw [if_neg hlt] at h; cases h

theorem scanBoxStep_none {b : Bool} {s : List Nat}
    (h : scanBoxStep b s = .ok none) : s = [] := by
  unfold scanBoxStep at h
  cases hp : nextBoxParse b s with
  | error e => rw [hp] at h; cases h
  | ok o =>
    rw [hp] at h
    cases o with
    | none => exact nextBoxParse_ok_none hp
    | some hd =>
      simp only at h
      by_cases hb : hd.boxtype = brobType
      · rw [if_pos hb] at h
        by_cases hl : hd.length > 0
        · rw [if_pos hl] at h
          by_cases hshort : s.length < hd.headerBytes + min (hd.length - hd.headerBytes) 4
          · rw [if_pos hshort] at h; cases h
          · rw [if_neg hshort] at h
            by_cases hw : (s.take (hd.headerBytes + min (hd.length - hd.headerBytes) 4)).length
                ≠ (if hd.hasExtendedSize then 20 else 12)
            · rw [if_pos hw] at h; cases h
            · rw [if_neg hw] at h
              by_cases hv : isValid4cc
                  ((s.take (hd.headerBytes + min (hd.length - hd.headerBytes) 4)).drop
                    ((s.take (hd.headerBytes + min (hd.length - hd.headerBytes) 4)).length - 4))
                  = false
              · rw [if_pos hv] at h; cases h
              · rw [if_neg hv] at h; cases h
        · rw [if_neg hl] at h
          by_cases hw : s.length ≠ (if hd.hasExtendedSize then 20 else 12)
          · rw [if_pos hw] at h; cases h
          · rw [if_neg hw] at h
            by_cases hv : isValid4cc (s.drop (s.length - 4)) = false
            · rw [if_pos hv] at h; cases h
            · rw [if_neg hv] at h; cases h
      · rw [if_neg hb] at h; cases h

theorem scanKeepAux_ok_eq (specs : Option (List BoxSpec))
    (hmatch : ∀ (i : Int) (box : BoxDetails) (it : Option (List Nat)) (inst : Int),
      scanMatch specs i box it inst = true) :
    ∀ (fuel i off : Nat) (seen : List (List Nat)) (s out : List Nat),
      scanKeepAux specs fuel i off seen s = .ok out → out = s := by
  intro fuel
  induction fuel with
  | zero => intro i off seen s out h; cases h
  | succ k ih =>
    intro i off seen s out h
    unfold scanKeepAux at h
    cases hstep : scanBoxStep (i == 0) s with
    | error e => rw [hstep] at h; cases h
    | ok o =>
      rw [hstep] at h
      cases o with
      | none =>
        have hs := scanBoxStep_none hstep
        cases h
        rw [hs]
      | some p =>
        obtain ⟨hd, it⟩ := p
        simp only at h
        rw [hmatch i ⟨off, hd.length, hd.boxtype, hd.hasExtendedSize⟩ (some it)
          ((seen.count it : Nat) : Int), if_pos rfl] at h
        rw [getAction_defaultOpts, if_pos rfl] at h
        by_cases hl : hd.length > 0
        · rw [if_pos hl] at h
          by_cases hshort : s.length < hd.length
          · rw [if_pos hshort] at h; cases h
          · rw [if_neg hshort] at h
            cases hrec : scanKeepAux specs k (i + 1) (off + hd.length) (it :: seen)
                (s.drop hd.length) with
            | error e => rw [hrec] at h; cases h
            | ok rest =>
              rw [hrec] at h
              simp only [Except.map] at h
              cases h
              have := ih (i + 1) (off + hd.length) (it :: seen) (s.drop hd.length)
                rest hrec
              rw [this, List.take_append_drop]
        · rw [if_neg hl] at h
          cases hrec : scanKeepAux specs k (i + 1) (off + s.length) (it :: seen) [] with
          | error e => rw [hrec] at h; cases h
          | ok rest =>
            rw [hrec] at h
            simp only [Except.map] at h
            cases h
            have := ih (i + 1) (off + s.length) (it :: seen) [] rest hrec
            rw [this, List.append_nil]

/-- C1 (amended): whenever the keep-all passthrough scan (`scanBoxes` in
`MODE_KEEP`, every box matching, default compression options) completes
successfully, its output is byte-exactly equal to the input.  An
implicit-sized final box is copied verbatim with its zero size field:
`copyCurrentBox` re-emits the stored header unchanged, so the scan never
rewrites the size (the rewrite described by the spec belongs to
`doAddBoxes`, not to `scanBoxes`; see the counterexample). -/
theorem scanKeep_passthrough (specs : Option (List BoxSpec)) (s out : List Nat)
    (hmatch : ∀ (i : Int) (box : BoxDetails) (it : Option (List Nat)) (inst : Int),
      scanMatch specs i box it inst = true)
    (h : scanBoxesKeep specs s = .ok out) :
    out = s :=
  scanKeepAux_ok_eq specs hmatch (s.length + 1) 0 0 [] s out h

/-- Witness for `scanKeep_passthrough`: a concrete three-box input (an
empty box, a box with payload, and an implicit-size final box) scans to
itself under the null selector list. -/
theorem scanKeep_passthrough_witness :
    ([0, 0, 0, 8, 0x41, 0x41, 0x41, 0x41,
      0, 0, 0, 11, 0x42, 0x42, 0x42, 0x42, 0x62, 0x62, 0x62,
      0, 0, 0, 0, 0x44, 0x44, 0x44, 0x44, 0x61, 0x61] : List Nat) =
    [0, 0, 0, 8, 0x41, 0x41, 0x41, 0x41,
     0, 0, 0, 11, 0x42, 0x42, 0x42, 0x42, 0x62, 0x62, 0x62,
     0, 0, 0, 0, 0x44, 0x44, 0x44, 0x44, 0x61, 0x61] :=
  scanKeep_passthrough none
    [0, 0, 0, 8, 0x41, 0x41, 0x41, 0x41,
     0, 0, 0, 11, 0x42, 0x42, 0x42, 0x42, 0x62, 0x62, 0x62,
     0, 0, 0, 0, 0x44, 0x44, 0x44, 0x44, 0x61, 0x61]
    [0, 0, 0, 8, 0x41, 0x41, 0x41, 0x41,
     0, 0, 0, 11, 0x42, 0x42, 0x42, 0x42, 0x62, 0x62, 0x62,
     0, 0, 0, 0, 0x44, 0x44, 0x44, 0x44, 0x61, 0x61]
    (fun _ _ _ _ => rfl) (by decide)

/-- Modelled from the spec: the output the claim predicts for a keep-all
passthrough whose input ends in an implicit-sized final box, when the
rewrite is possible (here it always is: the input is an in-memory byte list
whose size is known).  Boxes are copied and the final box with size field 0
is rewritten with an explicit size in its u32 field (or the u64 field of an
extended header). -/
def specRewriteFinal : Nat → List Nat → List Nat
  | 0, s => s
  | fuel + 1, s =>
    if s.length < 8 then s
    else
      let len32 := beVal (s.take 4)
      if len32 = 0 then beBytes 4 s.length ++ s.drop 4
      else if len32 = 1 then
        let ext := beVal ((s.drop 8).take 8)
        if ext = 0 then s.take 8 ++ beBytes 8 s.length ++ s.drop 16
        else s.take ext ++ specRewriteFinal fuel (s.drop ext)
      else s.take len32 ++ specRewriteFinal fuel (s.drop len32)

/-- C1 (counterexample): on the well-formed input consisting of a single
implicit-sized box (size field 0, type `AAAA`), with the input size known
(8 bytes), the claim predicts the final box is rewritten with the explicit
size 8, but the passthrough scan emits the input byte-for-byte, zero size
field included. -/
theorem scanKeep_no_rewrite_counterexample :
    scanBoxesKeep none [0, 0, 0, 0, 0x41, 0x41, 0x41, 0x41] =
      .ok [0, 0, 0, 0, 0x41, 0x41, 0x41, 0x41]
    ∧ specRewriteFinal 9 [0, 0, 0, 0, 0x41, 0x41, 0x41, 0x41] =
      [0, 0, 0, 8, 0x41, 0x41, 0x41, 0x41]
    ∧ ([0, 0, 0, 0, 0x41, 0x41, 0x41, 0x41] : List Nat) ≠
      [0, 0, 0, 8, 0x41, 0x41, 0x41, 0x41] := by
  refine ⟨by decide, by decide, by decide⟩

/-- A readable binary stream for the `CatReader` model: a byte buffer, a
position (which seeking may push beyond the end), and a seekability flag.
`bytes` inputs to `CatReader` become seekable in-memory files (`BytesIO`);
live streams may be non-seekable. -/
structure PyFile where
  data : List Nat
  pos : Nat
  seekable : Bool
  deriving DecidableEq, Repr

/-- State of a `CatReader` (`CatSource` of the spec).  `files` holds the
current input and the inputs after it; inputs already consumed are dropped
(the source keeps them in a list with a moving `_currentFileIx`, but never
revisits them).  `off` is the virtual position `tell()` reports; `eof` the
`_eof` flag. -/
structure CatReader where
  files : List PyFile
  off : Int
  eof : Bool
  deriving DecidableEq, Repr

/-- The forward-walking loop of `CatReader.seek` (lines 1594-1632) with a
nonnegative number of bytes still to skip.  A seekable current file is
advanced by an in-file seek, capped at its size unless it is the last file
(the last file may be overshot, as `BytesIO.seek` allows); a non-seekable
current file is advanced by the read-and-discard block loop, which consumes
at most what the file still holds.  Reaching the end of the last file with
bytes still to skip sets `eof`.  Returns the remaining files, the new
offset, the `eof` flag and the value `seek` returns. -/
def seekLoop : List PyFile → Int → Int → (List PyFile × Int × Bool × Int)
  | [], _, off => ([], off, true, off)
  | f :: rest, stillWant, off =>
    if f.seekable then
      let startedAt : Int := f.pos
      let size : Int := f.data.length
      let skipped : Int :=
        if !rest.isEmpty && decide (startedAt + stillWant ≥ size) then size - startedAt
        else stillWant
      let f2 : PyFile := { f with pos := (startedAt + skipped).toNat }
      let off2 := off + skipped
      let sw2 := stillWant - skipped
      if sw2 ≤ 0 then (f2 :: rest, off2, false, off2)
      else
        match rest with
        | [] => ([f2], off2, true, off2)
        | r :: rs => seekLoop (r :: rs) sw2 off2
    else
      let avail : Int := (f.data.length : Int) - f.pos
      if stillWant ≤ avail then
        let f2 : PyFile := { f with pos := ((f.pos : Int) + stillWant).toNat }
        (f2 :: rest, off + stillWant, false, off + stillWant)
      else
        let f2 : PyFile := { f with pos := f.data.length }
        match rest with
        | [] => ([f2], off + avail, true, off + avail)
        | r :: rs => seekLoop (r :: rs) (stillWant - avail) (off + avail)

/-- Embedding of `CatReader.seek` (lines 1581-1632) for the default whence,
`io.SEEK_SET` ("seek to position `n`"): the target is converted to a
relative distance, a negative distance raises the builtin
`IOError('Seeking backwards not implemented.')` (line 1586), at `eof` the
offset simply jumps, and otherwise the forward walk runs.  (`SEEK_CUR`
shares the same loop without the backward check; `SEEK_END` raises
IOError.)  A reader whose file list is exhausted without the `eof` flag set
raises IndexError; `read`/`seek` set the flag correctly, only `readall`
leaves such a state behind. -/
def CatReader.seekSet (cr : CatReader) (n : Int) : Except PyErr (CatReader × Int) :=
  let sw := n - cr.off
  if sw < 0 then .error .ioError
  else if cr.eof then .ok ({ cr with off := cr.off + sw }, cr.off + sw)
  else
    match cr.files with
    | [] => .error .indexError
    | f :: rest =>
      match seekLoop (f :: rest) sw cr.off with
      | (files2, off2, eof2, ret) => .ok ({ files := files2, off := off2, eof := eof2 }, ret)

/-- C9 (amended): seeking a `CatReader` to a position earlier than the
current virtual position fails with the builtin `IOError` (there is no
`UnseekableInputError`: the source defines no such class), while seeking to
the current position or forward succeeds, by read-and-discard when the
underlying stream is non-seekable (a reader with inputs remaining or its
`eof` flag set; only the stray state `readall` leaves behind is excluded). -/
theorem catReader_seek_contract (cr : CatReader) (n : Int)
    (hst : cr.eof = true ∨ cr.files ≠ []) :
    (n - cr.off < 0 → CatReader.seekSet cr n = .error .ioError)
    ∧ (0 ≤ n - cr.off → ∃ out, CatReader.seekSet cr n = .ok out) := by
  constructor
  · intro hneg
    unfold CatReader.seekSet
    rw [if_pos hneg]
  · intro hpos
    unfold CatReader.seekSet
    rw [if_neg (by omega)]
    by_cases he : cr.eof = true
    · rw [if_pos he]
      exact ⟨_, rfl⟩
    · rw [if_neg he]
      cases hf : cr.files with
      | nil =>
        rcases hst with h | h
        · exact absurd h he
        · exact absurd hf h
      | cons f rest =>
        exact ⟨_, rfl⟩

/-- Witness for `catReader_seek_contract`: a reader mid-way through two
buffers (a seekable one and a non-seekable one); the backward seek raises
IOError and the forward seek lands on the target by read-and-discard. -/
theorem catReader_seek_contract_witness :
    CatReader.seekSet ⟨[⟨[97, 98, 99, 100, 101], 3, true⟩, ⟨[102, 103, 104, 105, 106], 0, false⟩], 3, false⟩ 1
      = .error .ioError
    ∧ (∃ out, CatReader.seekSet
        ⟨[⟨[97, 98, 99, 100, 101], 3, true⟩, ⟨[102, 103, 104, 105, 106], 0, false⟩], 3, false⟩ 7
        = .ok out)
    ∧ CatReader.seekSet
        ⟨[⟨[97, 98, 99, 100, 101], 3, true⟩, ⟨[102, 103, 104, 105, 106], 0, false⟩], 3, false⟩ 7
      = .ok (⟨[⟨[102, 103, 104, 105, 106], 2, false⟩], 7, false⟩, 7) := by
  refine ⟨?_, ?_, ?_⟩
  · exact (catReader_seek_contract
      ⟨[⟨[97, 98, 99, 100, 101], 3, true⟩, ⟨[102, 103, 104, 105, 106], 0, false⟩], 3, false⟩ 1
      (Or.inr (by decide))).1 (by decide)
  · exact (catReader_seek_contract
      ⟨[⟨[97, 98, 99, 100, 101], 3, true⟩, ⟨[102, 103, 104, 105, 106], 0, false⟩], 3, false⟩ 7
      (Or.inr (by decide))).2 (by decide)
  · decide

/-- C9 (counterexample): the claim says a backward seek fails with
`UnseekableInputError`, but the source defines no such exception class
anywhere (`PyErr` enumerates every exception class the program defines or
raises); `CatReader.seek` raises the builtin IOError at line 1586.  Here a
reader at virtual position 3 is asked to seek to position 1. -/
theorem catReader_backward_ioError_counterexample :
    CatReader.seekSet ⟨[⟨[97, 98, 99, 100, 101], 3, true⟩], 3, false⟩ 1
      = .error .ioError
    ∧ PyErr.ioError ≠ PyErr.unseekableOutput
    ∧ PyErr.ioError ≠ PyErr.usageError
    ∧ PyErr.ioError ≠ PyErr.invalidBmff := by
  refine ⟨by decide, by decide, by decide, by decide⟩

/-- Return codes of `scanBoxes` (lines 644-646). -/
def RAW_JXL : Int := -1
def FAILED_PARSE : Int := -2
def DECOMP_TOO_BIG : Int := -3

/-- The exception handling of `scanBoxes` (lines 779-782): `RawJxlError`
becomes the return value `RAW_JXL` and any other `InvalidBmffError` becomes
`FAILED_PARSE`; every other exception propagates — in particular
`TooMuchDataError`, which no clause catches. -/
def scanCatch (r : Except PyErr Int) : Except PyErr Int :=
  match r with
  | .error .rawJxl => .ok RAW_JXL
  | .error .invalidBmff => .ok FAILED_PARSE
  | r => r

/-- The `scanBoxes` loop in `MODE_EXTRACT_FIRST` (lines 706-733) over a
non-seekable source, with the external Brotli decoder abstracted by the
sizes of its decoded blocks (`decodedSizes`), as in
`copyAndDecompressCheck`.  The first matching box returns 0 after emitting
its payload: when decompression is configured and the box is `brob`, the
body streams through `_copyAndDecompress`, whose size cap can raise
`TooMuchData`; otherwise the payload (with the peeked inner type replayed
for `brob`) is copied, a truncated body raising the IOError of `copyData`.
Non-matching boxes are skipped.  Reaching end of stream without a match
returns 1.  The bytes written to the sink are not modelled (the C8 claim
concerns return codes and exceptions); the decompress branch checks the
declared body is present before streaming it. -/
def scanExtractAux (specs : Option (List BoxSpec)) (opts : CompressionOpts)
    (decodedSizes : List Nat) :
    Nat → Nat → Nat → List (List Nat) → List Nat → Except PyErr Int
  | 0, _, _, _, _ => .error .boxCutter
  | fuel + 1, i, off, seen, s =>
    match scanBoxStep (i == 0) s with
    | .error e => .error e
    | .ok none => .ok 1
    | .ok (some (h, it)) =>
      let box : BoxDetails := ⟨off, h.length, h.boxtype, h.hasExtendedSize⟩
      let inst : Int := (seen.count it : Int)
      if scanMatch specs i box (some it) inst then
        if decide (opts.decompressWhen ≠ DECOMPRESS_NEVER)
            && decide (h.boxtype = brobType) then
          if h.length > 0 then
            if s.length < h.length then .error .ioError
            else
              match copyAndDecompressCheck decodedSizes opts.decompressMax with
              | .error e => .error e
              | .ok _ => .ok 0
          else
            match copyAndDecompressCheck decodedSizes opts.decompressMax with
            | .error e => .error e
            | .ok _ => .ok 0
        else if h.boxtype = brobType then
          if h.length > 0 then
            if s.length < h.length then .error .ioError else .ok 0
          else .ok 0
        else
          if h.length > 0 then
            if s.length < h.length then .error .ioError else .ok 0
          else .ok 0
      else
        if h.length > 0 then
          if s.length < h.length then .error .invalidBmff
          else scanExtractAux specs opts decodedSizes fuel (i + 1) (off + h.length)
            (it :: seen) (s.drop h.length)
        else scanExtractAux specs opts decodedSizes fuel (i + 1) (off + s.length)
          (it :: seen) []

/-- `scanBoxes` in `MODE_EXTRACT_FIRST`: run the loop and apply the
exception handling of lines 779-782. -/
def scanBoxesExtract (s : List Nat) (specs : Option (List BoxSpec))
    (opts : CompressionOpts) (decodedSizes : List Nat) : Except PyErr Int :=
  scanCatch (scanExtractAux specs opts decodedSizes (s.length + 1) 0 0 [] s)

/-- Embedding of `boxspecStringsToBoxspecList` (lines 648-663) on a non-null
list: parse each specifier, expanding the `@jxl` and `@JXL` aliases. -/
def boxspecStringsToBoxspecList : List String → Except PyErr (List BoxSpec)
  | [] => .ok []
  | sStr :: rest => do
    let tail ← boxspecStringsToBoxspecList rest
    if sStr = "@jxl" ∨ sStr = "@JXL" then do
      let a ← BoxSpec.ofString "ITYPE~=jxl*"
      let b ← BoxSpec.ofString "TYPE=ftyp"
      if sStr = "@JXL" then do
        let c ← BoxSpec.ofString "TYPE=jbrd"
        let d ← BoxSpec.ofString "type=Exif"
        let e ← BoxSpec.ofString "type=xml "
        let g ← BoxSpec.ofString "type=jumb"
        .ok ([a, b, c, d, e, g] ++ tail)
      else .ok ([a, b] ++ tail)
    else do
      let sp ← BoxSpec.ofString sStr
      .ok (sp :: tail)

/-- Embedding of `doExtractBox` (lines 439-456), with the `brotli` package
assumed available: an empty specifier list returns 2; then the scan runs
(specifier parse errors propagate, as `doExtractBox` catches nothing) and
the return value `DECOMP_TOO_BIG` as well as any other nonzero value maps
to exit code 2, success to 0.  Exceptions from the scan propagate out of
the function. -/
def doExtractBoxModel (s : List Nat) (boxspecStrings : List String)
    (opts : CompressionOpts) (decodedSizes : List Nat) : Except PyErr Int :=
  if boxspecStrings.length = 0 then .ok 2
  else
    match boxspecStringsToBoxspecList boxspecStrings with
    | .error e => .error e
    | .ok specs =>
      match scanBoxesExtract s (some specs) opts decodedSizes with
      | .error e => .error e
      | .ok r =>
        if r = DECOMP_TOO_BIG then .ok 2
        else if r ≠ 0 then .ok 2
        else .ok 0

theorem scanExtractAux_ok_vals (specs : Option (List BoxSpec))
    (opts : CompressionOpts) (dec : List Nat) :
    ∀ (fuel i off : Nat) (seen : List (List Nat)) (s : List Nat) (r : Int),
      scanExtractAux specs opts dec fuel i off seen s = .ok r → r = 0 ∨ r = 1 := by
  intro fuel
  induction fuel with
  | zero => intro i off seen s r h; cases h
  | succ k ih =>
    intro i off seen s r h
    unfold scanExtractAux at h
    cases hstep : scanBoxStep (i == 0) s with
    | error e => rw [hstep] at h; cases h
    | ok o =>
      rw [hstep] at h
      cases o with
      | none => cases h; right; rfl
      | some p =>
        obtain ⟨hd, it⟩ := p
        simp only at h
        by_cases hm : scanMatch specs i ⟨off, hd.length, hd.boxtype, hd.hasExtendedSize⟩
            (some it) ((seen.count it : Nat) : Int) = true
        · rw [if_pos hm] at h
          by_cases hdw : (decide (opts.decompressWhen ≠ DECOMPRESS_NEVER)
              && decide (hd.boxtype = brobType)) = true
          · rw [if_pos hdw] at h
            by_cases hl : hd.length > 0
            · rw [if_pos hl] at h
              by_cases hshort : s.length < hd.length
              · rw [if_pos hshort] at h; cases h
              · rw [if_neg hshort] at h
                cases hc : copyAndDecompressCheck dec opts.decompressMax with
                | error e => rw [hc] at h; cases h
                | ok w => rw [hc] at h; cases h; left; rfl
            · rw [if_neg hl] at h
              cases hc : copyAndDecompressCheck dec opts.decompressMax with
              | error e => rw [hc] at h; cases h
              | ok w => rw [hc] at h; cases h; left; rfl
          · rw [if_neg hdw] at h
            by_cases hbr : hd.boxtype = brobType
            · rw [if_pos hbr] at h
              by_cases hl : hd.length > 0
              · rw [if_pos hl] at h
                by_cases hshort : s.length < hd.length
                · rw [if_pos hshort] at h; cases h
                · rw [if_neg hshort] at h; cases h; left; rfl
              · rw [if_neg hl] at h; cases h; left; rfl
            · rw [if_neg hbr] at h
              by_cases hl : hd.length > 0
              · rw [if_pos hl] at h
                by_cases hshort : s.length < hd.length
                · rw [if_pos hshort] at h; cases h
                · rw [if_neg hshort] at h; cases h; left; rfl
              · rw [if_neg hl] at h; cases h; left; rfl
        · rw [if_neg hm] at h
          by_cases hl : hd.length > 0
          · rw [if_pos hl] at h
            by_cases hshort : s.length < hd.length
            · rw [if_pos hshort] at h; cases h
            · rw [if_neg hshort] at h
              exact ih (i + 1) (off + hd.length) (it :: seen) (s.drop hd.length) r h
          · rw [if_neg hl] at h
            exact ih (i + 1) (off + s.length) (it :: seen) [] r h

/-- C8 (amended): the scan never returns `DECOMP_TOO_BIG` — that constant
is dead code, because `scanBoxes` catches only `RawJxlError` and
`InvalidBmffError`, so a `TooMuchDataError` raised when the cumulative
decoded size exceeds a positive `decompressMax` propagates out of
`scanBoxes`, and `doExtractBox` then terminates by that exception instead
of returning exit code 2. -/
theorem tooMuchData_propagates (s : List Nat) (strs : List String)
    (opts : CompressionOpts) (dec : List Nat) (specs : List BoxSpec)
    (hparse : boxspecStringsToBoxspecList strs = .ok specs) (hne : strs ≠ []) :
    scanBoxesExtract s (some specs) opts dec ≠ .ok DECOMP_TOO_BIG
    ∧ (scanBoxesExtract s (some specs) opts dec = .error .tooMuchData →
        doExtractBoxModel s strs opts dec = .error .tooMuchData) := by
  constructor
  · intro h
    unfold scanBoxesExtract scanCatch at h
    cases hr : scanExtractAux (some specs) opts dec (s.length + 1) 0 0 [] s with
    | error e =>
      rw [hr] at h
      cases e <;> simp [RAW_JXL, FAILED_PARSE, DECOMP_TOO_BIG] at h
    | ok r =>
      rw [hr] at h
      rcases scanExtractAux_ok_vals (some specs) opts dec (s.length + 1) 0 0 [] s r hr
        with h0 | h1
      · rw [h0] at h; simp [DECOMP_TOO_BIG] at h
      · rw [h1] at h; simp [DECOMP_TOO_BIG] at h
  · intro herr
    unfold doExtractBoxModel
    rw [if_neg (by simpa [List.length_eq_zero] using hne)]
    rw [hparse]
    simp only
    rw [herr]

/-- Witness for `tooMuchData_propagates`: a single well-formed `brob` box
holding `Exif`, `decompressMax = 1`, and a decoder block of 5 bytes; the
scan result is the propagating `TooMuchDataError`, and `doExtractBox`
terminates by it. -/
theorem tooMuchData_propagates_witness :
    scanBoxesExtract
        [0, 0, 0, 16, 0x62, 0x72, 0x6F, 0x62, 0x45, 0x78, 0x69, 0x66, 1, 2, 3, 4]
        (some [⟨some [0x62, 0x72, 0x6F, 0x62], false, false, false, none, none⟩])
        { decompressWhen := 101, decompressMax := 1 } [5]
      ≠ .ok DECOMP_TOO_BIG
    ∧ doExtractBoxModel
        [0, 0, 0, 16, 0x62, 0x72, 0x6F, 0x62, 0x45, 0x78, 0x69, 0x66, 1, 2, 3, 4]
        ["TYPE=brob"] { decompressWhen := 101, decompressMax := 1 } [5]
      = .error .tooMuchData := by
  have hparse : boxspecStringsToBoxspecList ["TYPE=brob"] =
      .ok [⟨some [0x62, 0x72, 0x6F, 0x62], false, false, false, none, none⟩] := by decide
  have h := tooMuchData_propagates
    [0, 0, 0, 16, 0x62, 0x72, 0x6F, 0x62, 0x45, 0x78, 0x69, 0x66, 1, 2, 3, 4]
    ["TYPE=brob"] { decompressWhen := 101, decompressMax := 1 } [5]
    [⟨some [0x62, 0x72, 0x6F, 0x62], false, false, false, none, none⟩]
    hparse (by decide)
  exact ⟨h.1, h.2 (by decide)⟩

/-- C8 (counterexample): on a well-formed `brob` box whose decoded size (5)
exceeds the positive `decompressMax` (1), the extract scan terminates with
the uncaught `TooMuchDataError` — it does not return `DECOMP_TOO_BIG` — and
`doExtractBoxModel` with the selector `TYPE=brob` terminates by that
exception rather than returning exit code 2. -/
theorem doExtract_no_exit2_counterexample :
    scanBoxesExtract
        [0, 0, 0, 16, 0x62, 0x72, 0x6F, 0x62, 0x45, 0x78, 0x69, 0x66, 1, 2, 3, 4]
        none { decompressWhen := 101, decompressMax := 1 } [5]
      = .error .tooMuchData
    ∧ doExtractBoxModel
        [0, 0, 0, 16, 0x62, 0x72, 0x6F, 0x62, 0x45, 0x78, 0x69, 0x66, 1, 2, 3, 4]
        ["TYPE=brob"] { decompressWhen := 101, decompressMax := 1 } [5]
      ≠ .ok 2 := by
  refine ⟨by decide, by decide⟩

/-- The JXL container signature (`JXL_CONTAINER_SIG`). -/
def SIG : List Nat := [0, 0, 0, 0x0C, 0x4A, 0x58, 0x4C, 0x20, 0x0D, 0x0A, 0x87, 0x0A]

/-- The fixed `ftyp` brand box `addContainer` writes (line 510). -/
def FTYP_BOX : List Nat :=
  [0, 0, 0, 0x14, 0x66, 0x74, 0x79, 0x70, 0x6A, 0x78, 0x6C, 0x20,
   0, 0, 0, 0, 0x6A, 0x78, 0x6C, 0x20]

/-- The 4CC `jxlc` as bytes. -/
def jxlcType : List Nat := [0x6A, 0x78, 0x6C, 0x63]

/-- The 4CC `jxlp` as bytes. -/
def jxlpType : List Nat := [0x6A, 0x78, 0x6C, 0x70]

/-- The 4CC `jxll` as bytes. -/
def jxllType : List Nat := [0x6A, 0x78, 0x6C, 0x6C]

/-- The jxlp-writing loop of `addContainer` (lines 520-536): for each split
offset, a `jxlp` box holding the codestream chunk from the previous offset,
its header using the extended size form when `12 + chunkSize` overflows the
u32 field, and its payload starting with the big-endian u32 sequence number
`i`.  `copyData` raises IOError when the stream is shorter than a chunk.
Returns the emitted bytes, the remaining stream and the next sequence
index. -/
def jxlpChunks : List Nat → Nat → Nat → List Nat → Except PyErr (List Nat × List Nat × Nat)
  | [], _, i, stream => .ok ([], stream, i)
  | off :: rest, lastOff, i, stream =>
    let chunkSize := off - lastOff
    let size := 12 + chunkSize
    let hdrBytes :=
      if size > BIG_SIZE then beBytes 4 1 ++ jxlpType ++ beBytes 8 (size + 8)
      else beBytes 4 size ++ jxlpType
    if stream.length < chunkSize then .error .ioError
    else
      match jxlpChunks rest off (i + 1) (stream.drop chunkSize) with
      | .error e => .error e
      | .ok (out, stream2, nexti) =>
        .ok (hdrBytes ++ beBytes 4 i ++ stream.take chunkSize ++ out, stream2, nexti)

/-- Embedding of `addContainer` (lines 494-555) for an in-memory input: the
stream size is known (`streamSize` of an in-memory byte list), so
`codestreamBytesRemain` starts at the codestream length and the final box
always gets an explicit size (the seek-back fixup path for unknown sizes is
never taken).  An input not starting with the raw-codestream magic `FF 0A`
returns 1 with nothing written.  Otherwise the container signature, the
`ftyp` brand box and optionally a `jxll` box (`bytes([jxll])` raising
ValueError outside 0..255) precede either a single `jxlc` box or the
`jxlp` boxes of the sorted split offsets followed by a final `jxlp` whose
sequence number has the most significant bit set. -/
def addContainer (C : List Nat) (jxll : Option Nat) (splits : Option (List Nat)) :
    Except PyErr (Int × List Nat) :=
  if C.take 2 ≠ [0xFF, 0x0A] then .ok (1, [])
  else
    let lvlRes : Except PyErr (List Nat) :=
      match jxll with
      | none => .ok []
      | some lvl =>
        if lvl < 256 then .ok ([0, 0, 0, 9] ++ jxllType ++ [lvl])
        else .error .valueError
    match lvlRes with
    | .error e => .error e
    | .ok lvlBytes =>
      match splits with
      | none =>
        .ok (0, SIG ++ FTYP_BOX ++ lvlBytes
              ++ writeBoxHeader jxlcType (C.length : Int) ++ C)
      | some sp =>
        match jxlpChunks (List.insertionSort (· ≤ ·) sp) 0 0 C with
        | .error e => .error e
        | .ok (chunksOut, stream2, nexti) =>
          .ok (0, SIG ++ FTYP_BOX ++ lvlBytes ++ chunksOut
                ++ writeBoxHeader jxlpType ((4 + stream2.length : Nat) : Int)
                ++ beBytes 4 (nexti ||| 0x80000000) ++ stream2)

/-- The box loop of `extractJxlCodestream` (lines 390-431) over the full
stream (the 12 signature bytes are re-prepended through a `CatReader`, so
the signature itself is parsed as the first box, of type `JXL `, and
skipped).  State: `seenJxlc` and `nextJxlp` as in the source (−1 marking a
terminated `jxlp` sequence).  `jxlc` emits its payload; `jxlp` checks its
4-byte big-endian sequence number (most significant bit marking the last
part) against `nextJxlp`, returning 2 on a mismatch, then emits the rest of
its payload; `jxll` reads its level byte (warnings only; a payload shorter
than 1 byte returns 2); `jbrd` only warns; anything else is skipped.  At
end of stream the return value is 0 when a `jxlc` was emitted or a `jxlp`
sequence was started, else 1.  Short streams raise the IOError of
`copyData` inside a payload read, or `InvalidBmff` in the read-discard seek
that skips a box (the source is a non-seekable `CatReader`). -/
def extractLoop : Nat → Bool → Bool → Int → List Nat → Except PyErr (Int × List Nat)
  | 0, _, _, _, _ => .error .boxCutter
  | fuel + 1, isFirst, seenJxlc, nextJxlp, s =>
    match nextBoxParse isFirst s with
    | .error e => .error e
    | .ok none => .ok (if seenJxlc ∨ nextJxlp ≠ 0 then 0 else 1, [])
    | .ok (some h) =>
      if h.boxtype = jxlcType then
        if seenJxlc ∨ nextJxlp ≠ 0 then .error .invalidJxlContainer
        else if h.length > 0 then
          if s.length < h.length then .error .ioError
          else
            match extractLoop fuel false true nextJxlp (s.drop h.length) with
            | .error e => .error e
            | .ok (code, out) =>
              .ok (code, (s.drop h.headerBytes).take (h.length - h.headerBytes) ++ out)
        else
          match extractLoop fuel false true nextJxlp [] with
          | .error e => .error e
          | .ok (code, out) => .ok (code, s.drop h.headerBytes ++ out)
      else if h.boxtype = jxlpType then
        if seenJxlc ∨ nextJxlp < 0 then .error .invalidJxlContainer
        else if h.length > 0 then
          if s.length < h.headerBytes + min (h.length - h.headerBytes) 4 then .error .ioError
          else if min (h.length - h.headerBytes) 4 ≠ 4 then .error .invalidJxlContainer
          else
            let seqNum := beVal ((s.drop h.headerBytes).take 4)
            let isLast := decide (seqNum &&& 0x80000000 ≠ 0)
            let seqVal : Int := if isLast then ((seqNum &&& 0x7FFFFFFF : Nat) : Int) else (seqNum : Int)
            if seqVal ≠ nextJxlp then .ok (2, [])
            else if s.length < h.length then .error .ioError
            else
              match extractLoop fuel false seenJxlc
                  (if isLast then (-1 : Int) else nextJxlp + 1) (s.drop h.length) with
              | .error e => .error e
              | .ok (code, out) =>
                .ok (code,
                  (s.drop (h.headerBytes + 4)).take (h.length - h.headerBytes - 4) ++ out)
        else
          if s.length < h.headerBytes + 4 then .error .ioError
          else
            let seqNum := beVal ((s.drop h.headerBytes).take 4)
            let isLast := decide (seqNum &&& 0x80000000 ≠ 0)
            let seqVal : Int := if isLast then ((seqNum &&& 0x7FFFFFFF : Nat) : Int) else (seqNum : Int)
            if seqVal ≠ nextJxlp then .ok (2, [])
            else
              match extractLoop fuel false seenJxlc
                  (if isLast then (-1 : Int) else nextJxlp + 1) [] with
              | .error e => .error e
              | .ok (code, out) => .ok (code, s.drop (h.headerBytes + 4) ++ out)
      else if h.boxtype = jxllType then
        if h.length > 0 then
          if s.length < h.headerBytes + min (h.length - h.headerBytes) 1 then .error .ioError
          else if min (h.length - h.headerBytes) 1 ≠ 1 then .ok (2, [])
          else if s.length < h.length then .error .invalidBmff
          else extractLoop fuel false seenJxlc nextJxlp (s.drop h.length)
        else
          if s.length < h.headerBytes + 1 then .error .ioError
          else extractLoop fuel false seenJxlc nextJxlp []
      else
        if h.length > 0 then
          if s.length < h.length then .error .invalidBmff
          else extractLoop fuel false seenJxlc nextJxlp (s.drop h.length)
        else extractLoop fuel false seenJxlc nextJxlp []

/-- Embedding of `extractJxlCodestream` (lines 379-436): the first 12 bytes
must equal the container signature (else return 1 with nothing written);
they are re-prepended, and the box loop runs over the whole stream. -/
def extractJxlCodestream (s : List Nat) : Except PyErr (Int × List Nat) :=
  if s.take 12 = SIG then extractLoop (s.length + 1) true false 0 s
  else .ok (1, [])

theorem two_pow_31_hex : (0x80000000 : Nat) = 2 ^ 31 := by norm_num

theorem low_mask_hex : (0x7FFFFFFF : Nat) = 2 ^ 31 - 1 := by norm_num

theorem testBit31_add {n : Nat} (h : n < 2 ^ 31) : (n + 2 ^ 31).testBit 31 = true := by
  rw [Nat.testBit_to_div_mod]
  simp only [decide_eq_true_eq]
  omega

theorem land_msb_of_add {n : Nat} (h : n < 2 ^ 31) :
    (n + 2 ^ 31) &&& 0x80000000 ≠ 0 := by
  rw [two_pow_31_hex, Nat.and_two_pow, testBit31_add h]
  simp

theorem land_msb_of_lt {n : Nat} (h : n < 2 ^ 31) : n &&& 0x80000000 = 0 := by
  rw [two_pow_31_hex, Nat.and_two_pow, Nat.testBit_lt_two_pow h]
  simp

theorem land_low_of_add {n : Nat} (h : n < 2 ^ 31) :
    (n + 2 ^ 31) &&& 0x7FFFFFFF = n := by
  rw [low_mask_hex, Nat.and_pow_two_sub_one_eq_mod]
  omega

theorem lor_msb {n : Nat} (h : n < 2 ^ 31) : n ||| 0x80000000 = n + 2 ^ 31 := by
  rw [two_pow_31_hex]
  apply Nat.eq_of_testBit_eq
  intro j
  rw [Nat.testBit_lor, Nat.testBit_two_pow]
  rcases lt_trichotomy j 31 with hj | hj | hj
  · have hsplit : (2 : Nat) ^ 31 = 2 ^ j * 2 ^ (31 - j) := by
      rw [← pow_add]
      congr 1
      omega
    have hdiv : (n + 2 ^ 31) / 2 ^ j = n / 2 ^ j + 2 ^ (31 - j) := by
      rw [hsplit, Nat.add_mul_div_left _ _ (Nat.two_pow_pos j)]
    have heven : (2 : Nat) ^ (31 - j) % 2 = 0 := by
      have h31 : 31 - j = (31 - j - 1) + 1 := by omega
      rw [h31, pow_succ]
      omega
    rw [Nat.testBit_to_div_mod, Nat.testBit_to_div_mod, hdiv]
    have hmod : (n / 2 ^ j + 2 ^ (31 - j)) % 2 = n / 2 ^ j % 2 := by omega
    rw [hmod]
    simp [show ¬ (31 = j) by omega]
  · subst hj
    rw [Nat.testBit_lt_two_pow h, testBit31_add h]
    simp
  · have h1 : n.testBit j = false := Nat.testBit_lt_two_pow (by
      calc n < 2 ^ 31 := h
        _ ≤ 2 ^ j := Nat.pow_le_pow_right (by omega) (by omega))
    have h2 : (n + 2 ^ 31).testBit j = false := Nat.testBit_lt_two_pow (by
      have h32 : (2 : Nat) ^ 32 ≤ 2 ^ j := Nat.pow_le_pow_right (by omega) (by omega)
      have : n + 2 ^ 31 < 2 ^ 32 := by
        have : (2 : Nat) ^ 32 = 2 ^ 31 + 2 ^ 31 := by norm_num
        omega
      omega)
    rw [h1, h2]
    simp [show ¬ (31 = j) by omega]

theorem extractLoop_nil (fuel : Nat) (seenJxlc : Bool) (nj : Int) :
    extractLoop (fuel + 1) false seenJxlc nj [] =
      .ok (if seenJxlc ∨ nj ≠ 0 then 0 else 1, []) := by
  unfold extractLoop
  rfl

theorem extractLoop_skip_step (fuel : Nat) (b seenJxlc : Bool) (nj : Int)
    (box rest : List Nat) (h : ParsedHeader)
    (hp : nextBoxParse b (box ++ rest) = .ok (some h))
    (hlen : box.length = h.length)
    (htp1 : h.boxtype ≠ jxlcType) (htp2 : h.boxtype ≠ jxlpType)
    (htp3 : h.boxtype ≠ jxllType) (hpos : 0 < h.length) :
    extractLoop (fuel + 1) b seenJxlc nj (box ++ rest) =
      extractLoop fuel false seenJxlc nj rest := by
  rw [extractLoop.eq_def]
  simp only
  rw [hp]
  simp only
  rw [if_neg htp1, if_neg htp2, if_neg htp3, if_pos hpos]
  rw [if_neg (by simp [← hlen])]
  rw [← hlen, List.drop_left]

theorem extractLoop_jxll_step (fuel : Nat) (b seenJxlc : Bool) (nj : Int)
    (box rest : List Nat) (h : ParsedHeader)
    (hp : nextBoxParse b (box ++ rest) = .ok (some h))
    (hlen : box.length = h.length)
    (htp : h.boxtype = jxllType)
    (hgt : h.headerBytes + 1 ≤ h.length) :
    extractLoop (fuel + 1) b seenJxlc nj (box ++ rest) =
      extractLoop fuel false seenJxlc nj rest := by
  rw [extractLoop.eq_def]
  simp only
  rw [hp]
  simp only
  rw [if_neg (by rw [htp]; decide), if_neg (by rw [htp]; decide), if_pos htp]
  rw [if_pos (by omega : h.length > 0)]
  have hmin : min (h.length - h.headerBytes) 1 = 1 := by omega
  rw [hmin]
  rw [if_neg (by simp [← hlen]; omega)]
  rw [if_neg (by norm_num)]
  rw [if_neg (by simp [← hlen])]
  rw [← hlen, List.drop_left]

theorem extractLoop_jxlc_final (fuel : Nat) (hdr C : List Nat) (h : ParsedHeader)
    (hp : nextBoxParse false (hdr ++ C) = .ok (some h))
    (htp : h.boxtype = jxlcType)
    (hhb : h.headerBytes = hdr.length)
    (hlen : h.length = hdr.length + C.length)
    (hpos : 0 < h.length) :
    extractLoop (fuel + 2) false false 0 (hdr ++ C) = .ok (0, C) := by
  rw [extractLoop.eq_def]
  simp only
  rw [hp]
  simp only
  rw [if_pos htp]
  rw [if_neg (by simp)]
  rw [if_pos (by omega : h.length > 0)]
  rw [if_neg (by simp [hlen])]
  have hdrop : (hdr ++ C).drop h.length = [] := by
    rw [show h.length = (hdr ++ C).length by simp [hlen], List.drop_length]
  rw [hdrop, extractLoop_nil]
  simp only
  rw [hhb, List.drop_left]
  rw [show h.length - hdr.length = C.length by omega, List.take_length]
  simp

theorem extractLoop_jxlp_mid (fuel : Nat) (i : Nat) (hi : i < 2 ^ 31)
    (hdr chunk rest2 : List Nat) (h : ParsedHeader)
    (hp : nextBoxParse false ((hdr ++ beBytes 4 i ++ chunk) ++ rest2) = .ok (some h))
    (htp : h.boxtype = jxlpType)
    (hhb : h.headerBytes = hdr.length)
    (hlen : h.length = hdr.length + 4 + chunk.length)
    (code : Int) (out : List Nat)
    (hrec : extractLoop fuel false false ((i : Int) + 1) rest2 = .ok (code, out)) :
    extractLoop (fuel + 1) false false (i : Int) ((hdr ++ beBytes 4 i ++ chunk) ++ rest2)
      = .ok (code, chunk ++ out) := by
  have hbe4 : (beBytes 4 i).length = 4 := beBytes_length 4 i
  have hboxlen : (hdr ++ beBytes 4 i ++ chunk).length = h.length := by
    simp [hbe4, hlen]
    omega
  have hslen : ((hdr ++ beBytes 4 i ++ chunk) ++ rest2).length = h.length + rest2.length := by
    simp [← hboxlen]
    omega
  have hseqbytes : (((hdr ++ beBytes 4 i ++ chunk) ++ rest2).drop h.headerBytes).take 4
      = beBytes 4 i := by
    rw [hhb]
    rw [show (hdr ++ beBytes 4 i ++ chunk) ++ rest2
        = hdr ++ (beBytes 4 i ++ (chunk ++ rest2)) by simp]
    rw [List.drop_left]
    exact List.take_left' hbe4
  have hval : beVal (beBytes 4 i) = i := by
    apply beVal_beBytes_of_lt
    have : (2 : Nat) ^ 31 < 256 ^ 4 := by norm_num
    omega
  rw [extractLoop.eq_def]
  simp only
  rw [hp]
  simp only
  rw [if_neg (by rw [htp]; decide), if_pos htp]
  rw [if_neg (by simp)]
  rw [if_pos (by omega : h.length > 0)]
  have hmin : min (h.length - h.headerBytes) 4 = 4 := by omega
  rw [hmin]
  rw [if_neg (by rw [hslen]; omega)]
  rw [if_neg (by norm_num)]
  rw [hseqbytes, hval]
  rw [show (decide (i &&& 0x80000000 ≠ 0)) = false by
    simp [land_msb_of_lt hi]]
  simp only [Bool.false_eq_true, if_false]
  rw [if_neg (by simp : ¬ ((i : Int) ≠ (i : Int)))]
  rw [if_neg (by rw [hslen]; omega)]
  have hdroplen : ((hdr ++ beBytes 4 i ++ chunk) ++ rest2).drop h.length = rest2 :=
    List.drop_left' hboxlen
  rw [hdroplen, hrec]
  have hpayload : (((hdr ++ beBytes 4 i ++ chunk) ++ rest2).drop (h.headerBytes + 4)).take
      (h.length - h.headerBytes - 4) = chunk := by
    rw [hhb]
    rw [show (hdr ++ beBytes 4 i ++ chunk) ++ rest2
        = (hdr ++ beBytes 4 i) ++ (chunk ++ rest2) by simp]
    rw [List.drop_left' (by simp [hbe4])]
    rw [show h.length - hdr.length - 4 = chunk.length by omega]
    exact List.take_left' rfl
  rw [hpayload]

theorem extractLoop_jxlp_last (fuel : Nat) (i : Nat) (hi : i < 2 ^ 31)
    (hdr stream : List Nat) (h : ParsedHeader)
    (hp : nextBoxParse false (hdr ++ beBytes 4 (i ||| 0x80000000) ++ stream)
      = .ok (some h))
    (htp : h.boxtype = jxlpType)
    (hhb : h.headerBytes = hdr.length)
    (hlen : h.length = hdr.length + 4 + stream.length) :
    extractLoop (fuel + 2) false false (i : Int)
      (hdr ++ beBytes 4 (i ||| 0x80000000) ++ stream) = .ok (0, stream) := by
  have hq : i ||| 0x80000000 = i + 2 ^ 31 := lor_msb hi
  have hbe4 : (beBytes 4 (i ||| 0x80000000)).length = 4 := beBytes_length 4 _
  have hboxlen : (hdr ++ beBytes 4 (i ||| 0x80000000) ++ stream).length = h.length := by
    simp [hbe4, hlen]
    omega
  have hseqbytes : ((hdr ++ beBytes 4 (i ||| 0x80000000) ++ stream).drop h.headerBytes).take 4
      = beBytes 4 (i ||| 0x80000000) := by
    rw [hhb]
    rw [show hdr ++ beBytes 4 (i ||| 0x80000000) ++ stream
        = hdr ++ (beBytes 4 (i ||| 0x80000000) ++ stream) by simp]
    rw [List.drop_left]
    exact List.take_left' hbe4
  have hval : beVal (beBytes 4 (i ||| 0x80000000)) = i + 2 ^ 31 := by
    rw [hq]
    apply beVal_beBytes_of_lt
    have : (2 : Nat) ^ 31 + 2 ^ 31 ≤ 256 ^ 4 := by norm_num
    omega
  rw [extractLoop.eq_def]
  simp only
  rw [hp]
  simp only
  rw [if_neg (by rw [htp]; decide), if_pos htp]
  rw [if_neg (by simp)]
  rw [if_pos (by omega : h.length > 0)]
  have hmin : min (h.length - h.headerBytes) 4 = 4 := by omega
  rw [hmin]
  rw [if_neg (by rw [hboxlen]; omega)]
  rw [if_neg (by norm_num)]
  rw [hseqbytes, hval]
  rw [show (decide ((i + 2 ^ 31) &&& 0x80000000 ≠ 0)) = true from
    decide_eq_true (land_msb_of_add hi)]
  simp only [if_true]
  rw [land_low_of_add hi]
  rw [if_neg (by simp : ¬ ((i : Int) ≠ (i : Int)))]
  rw [if_neg (by rw [hboxlen]; omega)]
  have hdroplen : (hdr ++ beBytes 4 (i ||| 0x80000000) ++ stream).drop h.length = [] := by
    rw [← hboxlen, List.drop_length]
  rw [hdroplen, extractLoop_nil]
  simp only
  have hpayload : ((hdr ++ beBytes 4 (i ||| 0x80000000) ++ stream).drop (h.headerBytes + 4)).take
      (h.length - h.headerBytes - 4) = stream := by
    rw [hhb]
    rw [show hdr ++ beBytes 4 (i ||| 0x80000000) ++ stream
        = (hdr ++ beBytes 4 (i ||| 0x80000000)) ++ stream by simp]
    rw [List.drop_left' (by simp [hbe4])]
    rw [show h.length - hdr.length - 4 = stream.length by omega]
    exact List.take_length stream
  rw [hpayload]
  simp

theorem extract_skip_sig (fuel : Nat) (b seen : Bool) (nj : Int) (rest : List Nat) :
    extractLoop (fuel + 1) b seen nj (SIG ++ rest) = extractLoop fuel false seen nj rest := by
  apply extractLoop_skip_step fuel b seen nj SIG rest ⟨12, [0x4A, 0x58, 0x4C, 0x20], false, 8⟩
  · rw [show SIG ++ rest
        = beBytes 4 12 ++ ([0x4A, 0x58, 0x4C, 0x20] ++ ([0x0D, 0x0A, 0x87, 0x0A] ++ rest))
        from rfl]
    exact nextBoxParse_u32 b 12 _ _ (by decide) (by norm_num) (by norm_num [BIG_SIZE])
  · rfl
  · decide
  · decide
  · decide
  · norm_num

theorem extract_skip_ftyp (fuel : Nat) (b seen : Bool) (nj : Int) (rest : List Nat) :
    extractLoop (fuel + 1) b seen nj (FTYP_BOX ++ rest) =
      extractLoop fuel false seen nj rest := by
  apply extractLoop_skip_step fuel b seen nj FTYP_BOX rest
    ⟨20, [0x66, 0x74, 0x79, 0x70], false, 8⟩
  · rw [show FTYP_BOX ++ rest
        = beBytes 4 20 ++ ([0x66, 0x74, 0x79, 0x70]
            ++ ([0x6A, 0x78, 0x6C, 0x20, 0, 0, 0, 0, 0x6A, 0x78, 0x6C, 0x20] ++ rest))
        from rfl]
    exact nextBoxParse_u32 b 20 _ _ (by decide) (by norm_num) (by norm_num [BIG_SIZE])
  · rfl
  · decide
  · decide
  · decide
  · norm_num

theorem extract_skip_jxllbox (fuel : Nat) (b seen : Bool) (nj : Int) (l : Nat)
    (rest : List Nat) :
    extractLoop (fuel + 1) b seen nj (([0, 0, 0, 9] ++ jxllType ++ [l]) ++ rest) =
      extractLoop fuel false seen nj rest := by
  apply extractLoop_jxll_step fuel b seen nj _ rest ⟨9, jxllType, false, 8⟩
  · rw [show ([0, 0, 0, 9] ++ jxllType ++ [l]) ++ rest
        = beBytes 4 9 ++ (jxllType ++ ([l] ++ rest)) from rfl]
    exact nextBoxParse_u32 b 9 jxllType ([l] ++ rest) (by decide) (by norm_num)
      (by norm_num [BIG_SIZE])
  · rfl
  · rfl
  · norm_num

theorem extractLoop_lastbox (fuel : Nat) (i : Nat) (hi : i < 2 ^ 31)
    (stream : List Nat) (h64 : stream.length + 28 < 2 ^ 64) :
    extractLoop (fuel + 2) false false (i : Int)
      (writeBoxHeader jxlpType ((4 + stream.length : Nat) : Int)
        ++ beBytes 4 (i ||| 0x80000000) ++ stream) = .ok (0, stream) := by
  by_cases hfit : 12 + stream.length ≤ BIG_SIZE
  · have hw : writeBoxHeader jxlpType ((4 + stream.length : Nat) : Int)
        = beBytes 4 (12 + stream.length) ++ jxlpType := by
      unfold writeBoxHeader
      rw [if_neg (by omega), if_pos (by push_cast; omega)]
      congr 1
      congr 1
      omega
    rw [hw]
    apply extractLoop_jxlp_last fuel i hi (beBytes 4 (12 + stream.length) ++ jxlpType)
      stream ⟨12 + stream.length, jxlpType, false, 8⟩
    · rw [show (beBytes 4 (12 + stream.length) ++ jxlpType)
            ++ beBytes 4 (i ||| 0x80000000) ++ stream
          = beBytes 4 (12 + stream.length)
            ++ (jxlpType ++ (beBytes 4 (i ||| 0x80000000) ++ stream)) by simp]
      exact nextBoxParse_u32 false (12 + stream.length) jxlpType _ (by decide)
        (by omega) (by omega)
    · rfl
    · simp [beBytes_length, jxlpType]
    · simp [beBytes_length, jxlpType]
      try omega
  · have hw : writeBoxHeader jxlpType ((4 + stream.length : Nat) : Int)
        = beBytes 4 1 ++ jxlpType ++ beBytes 8 (20 + stream.length) := by
      unfold writeBoxHeader
      rw [if_neg (by omega), if_neg (by push_cast; omega)]
      congr 1
      congr 1
      omega
    rw [hw]
    apply extractLoop_jxlp_last fuel i hi (beBytes 4 1 ++ jxlpType ++ beBytes 8 (20 + stream.length))
      stream ⟨20 + stream.length, jxlpType, true, 16⟩
    · rw [show (beBytes 4 1 ++ jxlpType ++ beBytes 8 (20 + stream.length))
            ++ beBytes 4 (i ||| 0x80000000) ++ stream
          = beBytes 4 1 ++ (jxlpType ++ (beBytes 8 (20 + stream.length)
            ++ (beBytes 4 (i ||| 0x80000000) ++ stream))) by simp]
      exact nextBoxParse_u64 false (20 + stream.length) jxlpType _ (by decide)
        (by omega) (by omega)
    · rfl
    · simp [beBytes_length, jxlpType]
    · simp [beBytes_length, jxlpType]
      try omega

theorem extractLoop_chunkbox (fuel : Nat) (i : Nat) (hi : i < 2 ^ 31)
    (chunk rest2 : List Nat) (h64 : chunk.length + 28 < 2 ^ 64)
    (code : Int) (out : List Nat)
    (hrec : extractLoop fuel false false ((i : Int) + 1) rest2 = .ok (code, out)) :
    extractLoop (fuel + 1) false false (i : Int)
      (((if 12 + chunk.length > BIG_SIZE then
           beBytes 4 1 ++ jxlpType ++ beBytes 8 (12 + chunk.length + 8)
         else beBytes 4 (12 + chunk.length) ++ jxlpType)
        ++ beBytes 4 i ++ chunk) ++ rest2) = .ok (code, chunk ++ out) := by
  by_cases hfit : 12 + chunk.length > BIG_SIZE
  · rw [if_pos hfit]
    apply extractLoop_jxlp_mid fuel i hi _ chunk rest2
      ⟨12 + chunk.length + 8, jxlpType, true, 16⟩ _ rfl _ _ code out hrec
    · rw [show (beBytes 4 1 ++ jxlpType ++ beBytes 8 (12 + chunk.length + 8))
            ++ beBytes 4 i ++ chunk ++ rest2
          = beBytes 4 1 ++ (jxlpType ++ (beBytes 8 (12 + chunk.length + 8)
            ++ (beBytes 4 i ++ (chunk ++ rest2)))) by simp]
      exact nextBoxParse_u64 false (12 + chunk.length + 8) jxlpType _ (by decide)
        (by omega) (by omega)
    · simp [beBytes_length, jxlpType]
    · simp [beBytes_length, jxlpType]
      try omega
  · rw [if_neg hfit]
    apply extractLoop_jxlp_mid fuel i hi _ chunk rest2
      ⟨12 + chunk.length, jxlpType, false, 8⟩ _ rfl _ _ code out hrec
    · rw [show (beBytes 4 (12 + chunk.length) ++ jxlpType) ++ beBytes 4 i ++ chunk ++ rest2
          = beBytes 4 (12 + chunk.length)
            ++ (jxlpType ++ (beBytes 4 i ++ (chunk ++ rest2))) by simp]
      exact nextBoxParse_u32 false (12 + chunk.length) jxlpType _ (by decide)
        (by omega) (by omega)
    · simp [beBytes_length, jxlpType]
    · simp [beBytes_length, jxlpType]
      try omega

theorem extractLoop_jxlcbox (fuel : Nat) (C : List Nat) (h64 : C.length + 28 < 2 ^ 64) :
    extractLoop (fuel + 2) false false 0 (writeBoxHeader jxlcType (C.length : Int) ++ C)
      = .ok (0, C) := by
  by_cases hfit : 8 + C.length ≤ BIG_SIZE
  · have hw : writeBoxHeader jxlcType (C.length : Int)
        = beBytes 4 (8 + C.length) ++ jxlcType := by
      unfold writeBoxHeader
      rw [if_neg (by omega), if_pos (by omega)]
      have htn : (8 + (C.length : Int)).toNat = 8 + C.length := by omega
      rw [htn]
    rw [hw]
    apply extractLoop_jxlc_final fuel _ C ⟨8 + C.length, jxlcType, false, 8⟩
    · rw [show (beBytes 4 (8 + C.length) ++ jxlcType) ++ C
          = beBytes 4 (8 + C.length) ++ (jxlcType ++ C) by simp]
      exact nextBoxParse_u32 false (8 + C.length) jxlcType C (by decide) (by omega) (by omega)
    · rfl
    · simp [beBytes_length, jxlcType]
    · simp [beBytes_length, jxlcType]
      try omega
    · show 0 < 8 + C.length
      omega
  · have hw : writeBoxHeader jxlcType (C.length : Int)
        = beBytes 4 1 ++ jxlcType ++ beBytes 8 (16 + C.length) := by
      unfold writeBoxHeader
      rw [if_neg (by omega), if_neg (by omega)]
      have htn : (16 + (C.length : Int)).toNat = 16 + C.length := by omega
      rw [htn]
    rw [hw]
    apply extractLoop_jxlc_final fuel _ C ⟨16 + C.length, jxlcType, true, 16⟩
    · rw [show (beBytes 4 1 ++ jxlcType ++ beBytes 8 (16 + C.length)) ++ C
          = beBytes 4 1 ++ (jxlcType ++ (beBytes 8 (16 + C.length) ++ C)) by simp]
      exact nextBoxParse_u64 false (16 + C.length) jxlcType C (by decide) (by omega) (by omega)
    · rfl
    · simp [beBytes_length, jxlcType]
    · simp [beBytes_length, jxlcType]
      try omega
    · show 0 < 16 + C.length
      omega

/-- Round trip of the jxlp-writing loop against the extract loop: for a
chain of nondecreasing split offsets within the codestream, `jxlpChunks`
succeeds, consumes exactly the prefix up to the last offset, and the bytes
it emits, followed by the final `jxlp` box, are decoded by `extractLoop`
back to the original codestream suffix. -/
theorem jxlpChunks_roundtrip (C : List Nat) (hbig : C.length + 28 < 2 ^ 64) :
    ∀ (L : List Nat) (lastOff i : Nat),
      List.Chain (fun a b => a ≤ b) lastOff L →
      (∀ x ∈ L, x ≤ C.length) →
      lastOff ≤ C.length →
      i + L.length < 2 ^ 31 →
      ∃ out stream2,
        jxlpChunks L lastOff i (C.drop lastOff) = .ok (out, stream2, i + L.length) ∧
        stream2.length ≤ C.length ∧
        L.length ≤ out.length ∧
        ∀ k : Nat,
          extractLoop (L.length + 2 + k) false false (i : Int)
            (out ++ writeBoxHeader jxlpType ((4 + stream2.length : Nat) : Int)
              ++ beBytes 4 ((i + L.length) ||| 0x80000000) ++ stream2)
            = .ok (0, C.drop lastOff) := by
  intro L
  induction L with
  | nil =>
    intro lastOff i hchain hmem hoff hcnt
    refine ⟨[], C.drop lastOff, ?_, ?_, ?_, ?_⟩
    · simp [jxlpChunks]
    · simp
    · simp
    · intro k
      have h64 : (C.drop lastOff).length + 28 < 2 ^ 64 := by
        simp
        omega
      have hi : i < 2 ^ 31 := by simpa using hcnt
      have hstep := extractLoop_lastbox k i hi (C.drop lastOff) h64
      rw [show ([] : List Nat).length + 2 + k = k + 2 by simp [Nat.add_comm]]
      simpa using hstep
  | cons off rest ih =>
    intro lastOff i hchain hmem hoff hcnt
    rw [List.chain_cons] at hchain
    obtain ⟨hle, hchain2⟩ := hchain
    have hoffC : off ≤ C.length := hmem off (by simp)
    have hmem2 : ∀ x ∈ rest, x ≤ C.length := fun x hx => hmem x (by simp [hx])
    have hcnt2 : (i + 1) + rest.length < 2 ^ 31 := by
      simp only [List.length_cons] at hcnt
      omega
    obtain ⟨out2, s2, heq, hs2, hlb, hext⟩ := ih off (i + 1) hchain2 hmem2 hoffC hcnt2
    have hdropdrop : (C.drop lastOff).drop (off - lastOff) = C.drop off := by
      rw [List.drop_drop]
      congr 1
      omega
    have hguard : ¬ ((C.drop lastOff).length < off - lastOff) := by
      simp
      omega
    have hchlen : ((C.drop lastOff).take (off - lastOff)).length = off - lastOff := by
      simp
      omega
    refine ⟨(if 12 + (off - lastOff) > BIG_SIZE then
          beBytes 4 1 ++ jxlpType ++ beBytes 8 (12 + (off - lastOff) + 8)
        else beBytes 4 (12 + (off - lastOff)) ++ jxlpType)
        ++ beBytes 4 i ++ (C.drop lastOff).take (off - lastOff) ++ out2, s2,
      ?_, hs2, ?_, ?_⟩
    · rw [show i + (off :: rest).length = i + 1 + rest.length by
        simp only [List.length_cons]; omega]
      simp only [jxlpChunks]
      rw [if_neg hguard, hdropdrop, heq]
    · simp only [List.length_cons, List.length_append, beBytes_length, hchlen]
      omega
    · intro k
      have hi2 : i < 2 ^ 31 := by
        simp only [List.length_cons] at hcnt
        omega
      have h64c : ((C.drop lastOff).take (off - lastOff)).length + 28 < 2 ^ 64 := by
        rw [hchlen]
        omega
      have hrec0 := hext k
      rw [Nat.cast_add, Nat.cast_one] at hrec0
      have hstep := extractLoop_chunkbox (rest.length + 2 + k) i hi2
        ((C.drop lastOff).take (off - lastOff))
        (out2 ++ writeBoxHeader jxlpType ((4 + s2.length : Nat) : Int)
          ++ beBytes 4 ((i + 1 + rest.length) ||| 0x80000000) ++ s2)
        h64c 0 (C.drop off) hrec0
      rw [hchlen] at hstep
      have htad : (C.drop lastOff).take (off - lastOff) ++ C.drop off = C.drop lastOff := by
        conv_rhs => rw [← List.take_append_drop (off - lastOff) (C.drop lastOff)]
        rw [hdropdrop]
      rw [htad] at hstep
      rw [show i + (off :: rest).length = i + 1 + rest.length by
        simp only [List.length_cons]; omega]
      rw [show (off :: rest).length + 2 + k = rest.length + 2 + k + 1 by
        simp only [List.length_cons]; omega]
      simpa only [List.append_assoc] using hstep

theorem extractJxl_sig (r : List Nat) :
    extractJxlCodestream (SIG ++ r)
      = extractLoop ((SIG ++ r).length + 1) true false 0 (SIG ++ r) := by
  unfold extractJxlCodestream
  rw [if_pos (show List.take 12 (SIG ++ r) = SIG from rfl)]

/-- C4: for every raw codestream `C` beginning with `FF 0A`, any legal
splits list of offsets within `C`, and any level value in 0..255,
extracting the JXL codestream from the container produced by wrapping `C`
yields exactly `C`: `addContainer` succeeds with code 0 and
`extractJxlCodestream` applied to its output returns code 0 and the
original codestream bytes, for the single-`jxlc` layout (no splits) and
for the `jxlp` layout (splits sorted, sequence numbers checked, final box
carrying the most-significant-bit marker), with or without a `jxll` level
box. -/
theorem extract_wrap_roundtrip (C : List Nat) (lvl : Option Nat) (sp : Option (List Nat))
    (hC : C.take 2 = [0xFF, 0x0A])
    (hlvl : ∀ l, lvl = some l → l < 256)
    (hsp : ∀ L, sp = some L → (∀ x ∈ L, x ≤ C.length) ∧ L.length < 2 ^ 31)
    (hbig : C.length + 28 < 2 ^ 64) :
    ∃ out, addContainer C lvl sp = .ok (0, out)
      ∧ extractJxlCodestream out = .ok (0, C) := by
  cases lvl with
  | none =>
    cases sp with
    | none =>
      have haddc : addContainer C none none
          = .ok (0, SIG ++ FTYP_BOX ++ []
              ++ writeBoxHeader jxlcType (C.length : Int) ++ C) := by
        unfold addContainer
        rw [if_neg (by simp [hC])]
      refine ⟨_, haddc, ?_⟩
      rw [show SIG ++ FTYP_BOX ++ [] ++ writeBoxHeader jxlcType (C.length : Int) ++ C
            = SIG ++ (FTYP_BOX ++ (writeBoxHeader jxlcType (C.length : Int) ++ C))
          by simp]
      rw [extractJxl_sig]
      obtain ⟨k, hk⟩ : ∃ k,
          (SIG ++ (FTYP_BOX ++ (writeBoxHeader jxlcType (C.length : Int) ++ C))).length + 1
            = k + 2 + 1 + 1 :=
        ⟨(writeBoxHeader jxlcType (C.length : Int) ++ C).length + 29, by
          simp [SIG, FTYP_BOX]
          try omega⟩
      rw [hk, extract_skip_sig, extract_skip_ftyp]
      exact extractLoop_jxlcbox k C hbig
    | some L =>
      obtain ⟨hmemL, hcntL⟩ := hsp L rfl
      have hperm := List.perm_insertionSort (fun a b => a ≤ b) L
      have hsorted := List.sorted_insertionSort (fun a b => a ≤ b) L
      have hchain : List.Chain (fun a b => a ≤ b) 0
          (List.insertionSort (fun a b => a ≤ b) L) := by
        rw [List.chain_iff_pairwise]
        exact List.Pairwise.cons (fun x hx => Nat.zero_le x) hsorted
      have hmemLs : ∀ x ∈ List.insertionSort (fun a b => a ≤ b) L, x ≤ C.length :=
        fun x hx => hmemL x (hperm.mem_iff.mp hx)
      have hcnt0 : 0 + (List.insertionSort (fun a b => a ≤ b) L).length < 2 ^ 31 := by
        rw [hperm.length_eq]
        omega
      obtain ⟨outc, s2, heq, hs2, hlb, hext⟩ :=
        jxlpChunks_roundtrip C hbig (List.insertionSort (fun a b => a ≤ b) L) 0 0
          hchain hmemLs (Nat.zero_le _) hcnt0
      have hLsLen : (List.insertionSort (fun a b => a ≤ b) L).length = L.length :=
        hperm.length_eq
      rw [List.drop_zero] at heq
      simp only [List.drop_zero, Nat.cast_zero] at hext
      have haddc : addContainer C none (some L)
          = .ok (0, SIG ++ FTYP_BOX ++ [] ++ outc
              ++ writeBoxHeader jxlpType ((4 + s2.length : Nat) : Int)
              ++ beBytes 4
                ((0 + (List.insertionSort (fun a b => a ≤ b) L).length) ||| 0x80000000)
              ++ s2) := by
        unfold addContainer
        rw [if_neg (by simp [hC])]
        simp only
        rw [heq]
      refine ⟨_, haddc, ?_⟩
      rw [show SIG ++ FTYP_BOX ++ [] ++ outc
            ++ writeBoxHeader jxlpType ((4 + s2.length : Nat) : Int)
            ++ beBytes 4
              ((0 + (List.insertionSort (fun a b => a ≤ b) L).length) ||| 0x80000000)
            ++ s2
          = SIG ++ (FTYP_BOX ++ (outc
              ++ writeBoxHeader jxlpType ((4 + s2.length : Nat) : Int)
              ++ beBytes 4
                ((0 + (List.insertionSort (fun a b => a ≤ b) L).length) ||| 0x80000000)
              ++ s2)) by simp]
      rw [extractJxl_sig]
      obtain ⟨k, hk⟩ : ∃ k,
          (SIG ++ (FTYP_BOX ++ (outc
              ++ writeBoxHeader jxlpType ((4 + s2.length : Nat) : Int)
              ++ beBytes 4
                ((0 + (List.insertionSort (fun a b => a ≤ b) L).length) ||| 0x80000000)
              ++ s2))).length + 1
            = (List.insertionSort (fun a b => a ≤ b) L).length + 2 + k + 1 + 1 :=
        ⟨(outc ++ writeBoxHeader jxlpType ((4 + s2.length : Nat) : Int)
            ++ beBytes 4
              ((0 + (List.insertionSort (fun a b => a ≤ b) L).length) ||| 0x80000000)
            ++ s2).length + 29
          - (List.insertionSort (fun a b => a ≤ b) L).length, by
          simp [SIG, FTYP_BOX, beBytes_length]
          omega⟩
      rw [hk, extract_skip_sig, extract_skip_ftyp]
      exact hext k
  | some l =>
    have hl : l < 256 := hlvl l rfl
    cases sp with
    | none =>
      have haddc : addContainer C (some l) none
          = .ok (0, SIG ++ FTYP_BOX ++ ([0, 0, 0, 9] ++ jxllType ++ [l])
              ++ writeBoxHeader jxlcType (C.length : Int) ++ C) := by
        unfold addContainer
        rw [if_neg (by simp [hC])]
        simp only
        rw [if_pos hl]
      refine ⟨_, haddc, ?_⟩
      rw [show SIG ++ FTYP_BOX ++ ([0, 0, 0, 9] ++ jxllType ++ [l])
            ++ writeBoxHeader jxlcType (C.length : Int) ++ C
          = SIG ++ (FTYP_BOX ++ (([0, 0, 0, 9] ++ jxllType ++ [l])
              ++ (writeBoxHeader jxlcType (C.length : Int) ++ C))) by simp]
      rw [extractJxl_sig]
      obtain ⟨k, hk⟩ : ∃ k,
          (SIG ++ (FTYP_BOX ++ (([0, 0, 0, 9] ++ jxllType ++ [l])
              ++ (writeBoxHeader jxlcType (C.length : Int) ++ C)))).length + 1
            = k + 2 + 1 + 1 + 1 :=
        ⟨(writeBoxHeader jxlcType (C.length : Int) ++ C).length + 37, by
          simp [SIG, FTYP_BOX, jxllType]
          try omega⟩
      rw [hk, extract_skip_sig, extract_skip_ftyp, extract_skip_jxllbox]
      exact extractLoop_jxlcbox k C hbig
    | some L =>
      obtain ⟨hmemL, hcntL⟩ := hsp L rfl
      have hperm := List.perm_insertionSort (fun a b => a ≤ b) L
      have hsorted := List.sorted_insertionSort (fun a b => a ≤ b) L
      have hchain : List.Chain (fun a b => a ≤ b) 0
          (List.insertionSort (fun a b => a ≤ b) L) := by
        rw [List.chain_iff_pairwise]
        exact List.Pairwise.cons (fun x hx => Nat.zero_le x) hsorted
      have hmemLs : ∀ x ∈ List.insertionSort (fun a b => a ≤ b) L, x ≤ C.length :=
        fun x hx => hmemL x (hperm.mem_iff.mp hx)
      have hcnt0 : 0 + (List.insertionSort (fun a b => a ≤ b) L).length < 2 ^ 31 := by
        rw [hperm.length_eq]
        omega
      obtain ⟨outc, s2, heq, hs2, hlb, hext⟩ :=
        jxlpChunks_roundtrip C hbig (List.insertionSort (fun a b => a ≤ b) L) 0 0
          hchain hmemLs (Nat.zero_le _) hcnt0
      have hLsLen : (List.insertionSort (fun a b => a ≤ b) L).length = L.length :=
        hperm.length_eq
      rw [List.drop_zero] at heq
      simp only [List.drop_zero, Nat.cast_zero] at hext
      have haddc : addContainer C (some l) (some L)
          = .ok (0, SIG ++ FTYP_BOX ++ ([0, 0, 0, 9] ++ jxllType ++ [l]) ++ outc
              ++ writeBoxHeader jxlpType ((4 + s2.length : Nat) : Int)
              ++ beBytes 4
                ((0 + (List.insertionSort (fun a b => a ≤ b) L).length) ||| 0x80000000)
              ++ s2) := by
        unfold addContainer
        rw [if_neg (by simp [hC])]
        simp only
        rw [if_pos hl]
        simp only
        rw [heq]
      refine ⟨_, haddc, ?_⟩
      rw [show SIG ++ FTYP_BOX ++ ([0, 0, 0, 9] ++ jxllType ++ [l]) ++ outc
            ++ writeBoxHeader jxlpType ((4 + s2.length : Nat) : Int)
            ++ beBytes 4
              ((0 + (List.insertionSort (fun a b => a ≤ b) L).length) ||| 0x80000000)
            ++ s2
          = SIG ++ (FTYP_BOX ++ (([0, 0, 0, 9] ++ jxllType ++ [l]) ++ (outc
              ++ writeBoxHeader jxlpType ((4 + s2.length : Nat) : Int)
              ++ beBytes 4
                ((0 + (List.insertionSort (fun a b => a ≤ b) L).length) ||| 0x80000000)
              ++ s2))) by simp]
      rw [extractJxl_sig]
      obtain ⟨k, hk⟩ : ∃ k,
          (SIG ++ (FTYP_BOX ++ (([0, 0, 0, 9] ++ jxllType ++ [l]) ++ (outc
              ++ writeBoxHeader jxlpType ((4 + s2.length : Nat) : Int)
              ++ beBytes 4
                ((0 + (List.insertionSort (fun a b => a ≤ b) L).length) ||| 0x80000000)
              ++ s2)))).length + 1
            = (List.insertionSort (fun a b => a ≤ b) L).length + 2 + k + 1 + 1 + 1 :=
        ⟨(outc ++ writeBoxHeader jxlpType ((4 + s2.length : Nat) : Int)
            ++ beBytes 4
              ((0 + (List.insertionSort (fun a b => a ≤ b) L).length) ||| 0x80000000)
            ++ s2).length + 37
          - (List.insertionSort (fun a b => a ≤ b) L).length, by
          simp [SIG, FTYP_BOX, jxllType, beBytes_length]
          omega⟩
      rw [hk, extract_skip_sig, extract_skip_ftyp, extract_skip_jxllbox]
      exact hext k

theorem extract_wrap_roundtrip_witness :
    ∃ out, addContainer [0xFF, 0x0A, 0x00, 0x11] (some 5) (some [2]) = .ok (0, out)
      ∧ extractJxlCodestream out = .ok (0, [0xFF, 0x0A, 0x00, 0x11]) :=
  extract_wrap_roundtrip [0xFF, 0x0A, 0x00, 0x11] (some 5) (some [2])
    (by decide)
    (fun l h => by cases h; decide)
    (fun L h => by cases h; exact ⟨by decide, by decide⟩)
    (by decide)

end Boxcutter
